import Mathlib

/-!
Shallow embedding of the inventory ledger and movement engine of the
molar-stock server, together with proofs about its operations.

Tables are modelled as lists of records, projected to the columns that the
embedded routes read or write.  Each route handler is a pure function from a
database state and a request to `Except err DB`: `.ok db'` models a committed
transaction whose final state is `db'`, and `.error e` models an error
response; every error path of the embedded handlers issues `ROLLBACK` in the
source before returning, so the state accompanying an error is the original
one (see `applyOp`).  SQL `UPDATE ... WHERE` is modelled by mapping over all
rows matching the `WHERE` clause; the handlers that update by a row's
surrogate primary key first selected via an (inventory_id, location_id)
lookup are modelled as updates of the rows with that key, which coincides
with the source under the table's uniqueness constraint on the pair
(`GoodKeys` below).
-/

deriving instance DecidableEq for Except

namespace MolarStock

/-- Catalog item (`inventory` table), projected to the columns the embedded
routes read: id, owning user, name and optional barcode. -/
structure Item where
  id : Nat
  userId : Nat
  name : String
  barcode : Option String
deriving Repr, DecidableEq

/-- Per-location stock row (`location_inventory` table): quantity of one
inventory item at one location. -/
structure LocRow where
  invId : Nat
  locId : Nat
  qty : Int
deriving Repr, DecidableEq

/-- A named location (`locations` table). -/
structure Location where
  id : Nat
  userId : Nat
  name : String
deriving Repr, DecidableEq

/-- Global supply (`supplies` table): `cost_per_unit` is a nullable decimal
column, modelled as `Option Rat`. -/
structure Supply where
  id : Nat
  costPerUnit : Option Rat
  qty : Int
deriving Repr, DecidableEq

/-- Per-operatory stock row (`op_supplies` table). -/
structure OpRow where
  opId : Nat
  supplyId : Nat
  qty : Int
deriving Repr, DecidableEq

/-- Audit log row (`supply_logs` table). -/
structure LogEntry where
  userId : Nat
  opId : Nat
  supplyId : Nat
  qty : Int
  action : String
  unitCost : Rat
  totalCost : Rat
  procedureId : Option Nat
deriving Repr, DecidableEq

/-- The database state: one list per table, plus the next serial id handed
out for `inventory` inserts. -/
structure DB where
  items : List Item
  locations : List Location
  locInv : List LocRow
  supplies : List Supply
  opSup : List OpRow
  logs : List LogEntry
  nextItemId : Nat
deriving Repr, DecidableEq

/-- `SELECT ... FROM location_inventory WHERE inventory_id = inv AND location_id = loc`,
returning the first matching row. -/
def findRowL (l : List LocRow) (inv loc : Nat) : Option LocRow :=
  l.find? fun r => decide (r.invId = inv ∧ r.locId = loc)

/-- Row lookup on the database state. -/
def findRow (db : DB) (inv loc : Nat) : Option LocRow :=
  findRowL db.locInv inv loc

/-- The per-row effect of a quantity `UPDATE` keyed on (inventory_id,
location_id): apply `f` to the quantity of a matching row, keep others. -/
def updFn (inv loc : Nat) (f : Int → Int) (r : LocRow) : LocRow :=
  if r.invId = inv ∧ r.locId = loc then { r with qty := f r.qty } else r

/-- `UPDATE location_inventory SET quantity = f quantity WHERE inventory_id = inv
AND location_id = loc`: every row matching the key has `f` applied to its
quantity, all other rows are untouched. -/
def updQtyL (l : List LocRow) (inv loc : Nat) (f : Int → Int) : List LocRow :=
  l.map (updFn inv loc f)

/-- Quantity update lifted to the database state. -/
def updQty (db : DB) (inv loc : Nat) (f : Int → Int) : DB :=
  { db with locInv := updQtyL db.locInv inv loc f }

/-- `INSERT INTO location_inventory (inventory_id, location_id, quantity) VALUES ...`. -/
def insertRow (db : DB) (inv loc : Nat) (q : Int) : DB :=
  { db with locInv := db.locInv ++ [⟨inv, loc, q⟩] }

/-- `SELECT 1 FROM inventory WHERE id = inv AND user_id = uid` (ownership check). -/
def owns (db : DB) (uid inv : Nat) : Bool :=
  db.items.any fun it => decide (it.id = inv ∧ it.userId = uid)

/-- The quantity of an item at a location: the quantity of the stock row for
the pair, or `0` when no row exists. -/
def qtyAt (db : DB) (inv loc : Nat) : Int :=
  ((findRow db inv loc).map LocRow.qty).getD 0

/-! ### POST /api/inventory/consume (routes/inventory.js) -/

/-- One element of the `supplies` array of a consume request.  An absent
`inventory_id` (JS falsy) is modelled as `0`. -/
structure ConsumeItem where
  inventory_id : Nat
  quantity : Int
deriving Repr, DecidableEq

/-- The error responses of the consume handler.  Each constructor carries
exactly the data interpolated into the route's response message. -/
inductive ConsumeErr
  | missingInput
  | unauthorized (invId : Nat)
  | notFoundAt (invId locId : Nat)
  | notEnough (invId locId : Nat)
deriving Repr, DecidableEq

/-- The response message strings of the consume handler, as written in the
source. -/
def consumeErrMessage : ConsumeErr → String
  | .missingInput => "Missing location or supplies"
  | .unauthorized i => "Unauthorized access to item ID " ++ toString i
  | .notFoundAt i l => "Item ID " ++ toString i ++ " not found at location " ++ toString l
  | .notEnough i l =>
      "Not enough quantity of item ID " ++ toString i ++ " at location " ++ toString l

/-- The loop body of the consume handler: items with a falsy id or a
non-positive quantity are skipped (`continue`); otherwise ownership is
checked, the stock row at the location is locked and read, and the quantity
is decremented if sufficient.  Any failure rolls the whole transaction back. -/
def consumeGo (uid loc : Nat) : DB → List ConsumeItem → Except ConsumeErr DB
  | cur, [] => .ok cur
  | cur, item :: rest =>
    if item.inventory_id = 0 ∨ item.quantity ≤ 0 then
      consumeGo uid loc cur rest
    else if owns cur uid item.inventory_id = false then
      .error (.unauthorized item.inventory_id)
    else
      match findRowL cur.locInv item.inventory_id loc with
      | none => .error (.notFoundAt item.inventory_id loc)
      | some r =>
        if r.qty < item.quantity then
          .error (.notEnough item.inventory_id loc)
        else
          consumeGo uid loc (updQty cur item.inventory_id loc (· - item.quantity)) rest

/-- `POST /api/inventory/consume`: rejects a falsy location or empty supplies
list before opening the transaction, then runs the batch loop. -/
def consumeOp (db : DB) (uid loc : Nat) (items : List ConsumeItem) : Except ConsumeErr DB :=
  if loc = 0 ∨ items = [] then .error .missingInput
  else consumeGo uid loc db items

/-! ### POST /api/inventory/transfer (routes/inventory.js) -/

/-- A transfer request body; absent (falsy) fields are modelled as `0`. -/
structure TransferReq where
  inventory_id : Nat
  source_location_id : Nat
  destination_location_id : Nat
  quantity : Int
deriving Repr, DecidableEq

inductive TransferErr
  | missingFields
  | unauthorized
  | sourceNotFound
  | notEnoughAtSource
deriving Repr, DecidableEq

/-- `INSERT ... ON CONFLICT (inventory_id, location_id) DO UPDATE SET
quantity = location_inventory.quantity + q`: accumulate into an existing row,
insert otherwise. -/
def upsertAdd (db : DB) (inv loc : Nat) (q : Int) : DB :=
  match findRow db inv loc with
  | some _ => updQty db inv loc (· + q)
  | none => insertRow db inv loc q

/-- `POST /api/inventory/transfer`.  Note the handler checks only that the
four fields are non-falsy (so `quantity = 0` is rejected but a negative
quantity is not) and never compares source with destination. -/
def transferOp (db : DB) (uid : Nat) (rq : TransferReq) : Except TransferErr DB :=
  if rq.inventory_id = 0 ∨ rq.source_location_id = 0 ∨
      rq.destination_location_id = 0 ∨ rq.quantity = 0 then
    .error .missingFields
  else if owns db uid rq.inventory_id = false then
    .error .unauthorized
  else
    match findRow db rq.inventory_id rq.source_location_id with
    | none => .error .sourceNotFound
    | some r =>
      if r.qty < rq.quantity then
        .error .notEnoughAtSource
      else
        .ok (upsertAdd (updQty db rq.inventory_id rq.source_location_id (· - rq.quantity))
              rq.inventory_id rq.destination_location_id rq.quantity)

/-! ### POST /api/inventory/add (routes/inventory.js) -/

/-- The `destination` field of an add request: the strings `common_area`,
`transfer`, or anything else (a direct location). -/
inductive Dest
  | commonArea
  | transfer
  | direct
deriving Repr, DecidableEq

/-- One element of the `supplies` array of an add request, projected to the
fields the handler reads. -/
structure AddItem where
  isNew : Bool
  name : String
  barcode : Option String
  inventory_id : Nat
  quantity : Int
deriving Repr, DecidableEq

structure AddReq where
  destination : Dest
  location : Nat
  supplies : List AddItem
deriving Repr, DecidableEq

inductive AddErr
  | commonAreaNotFound
  | barcodeTaken (bc : String)
  | notOwned
  | notEnoughInCommonArea (invId : Nat)
  | noValidLocation (invId : Nat)
deriving Repr, DecidableEq

/-- ASCII lower-casing of one character. -/
def lowerChar (c : Char) : Char :=
  if 65 ≤ c.toNat ∧ c.toNat ≤ 90 then Char.ofNat (c.toNat + 32) else c

/-- ASCII lower-casing of a string. -/
def lowerStr (s : String) : String :=
  ⟨s.data.map lowerChar⟩

/-- `name ILIKE pattern` with the other item's literal name as the pattern:
case-insensitive name comparison. -/
def lowerEq (a b : String) : Bool :=
  lowerStr a == lowerStr b

/-- `SELECT id FROM inventory WHERE barcode = bc AND user_id = uid` is non-empty. -/
def hasBarcode (db : DB) (uid : Nat) (bc : String) : Bool :=
  db.items.any fun it => decide (it.barcode = some bc ∧ it.userId = uid)

/-- The `if (destination === 'transfer')` block of the add handler: draw the
quantity from the Common Area row (failing the batch if absent or
insufficient) and retarget the movement at the requested location; the other
destinations just pick the target location.  Returns the updated state and
the target location id. -/
def moveSource (commonAreaId : Nat) (dest : Dest) (location : Nat)
    (cur : DB) (invId : Nat) (q : Int) : Except AddErr (DB × Nat) :=
  match dest with
  | .transfer =>
    match findRow cur invId commonAreaId with
    | none => .error (.notEnoughInCommonArea invId)
    | some r =>
      if r.qty < q then .error (.notEnoughInCommonArea invId)
      else .ok (updQty cur invId commonAreaId (· - q), location)
  | .commonArea => .ok (cur, commonAreaId)
  | .direct => .ok (cur, location)

/-- The stock movement of one add-request item once its inventory id is
resolved: run the transfer block, reject a falsy target location, then
select-then-update (or insert) the target stock row. -/
def applyMove (commonAreaId : Nat) (dest : Dest) (location : Nat)
    (cur : DB) (invId : Nat) (q : Int) : Except AddErr DB :=
  match moveSource commonAreaId dest location cur invId q with
  | .error e => .error e
  | .ok (cur1, target) =>
    if target = 0 then .error (.noValidLocation invId)
    else
      match findRow cur1 invId target with
      | some _ => .ok (updQty cur1 invId target (· + q))
      | none => .ok (insertRow cur1 invId target q)

/-- The loop body of the add handler.  New items are matched case-insensitively
by name within the account and reused; otherwise a barcode collision fails the
batch, else a fresh catalog item is inserted.  Existing items are checked for
ownership.  Items with a falsy name / id or non-positive quantity are skipped. -/
def addGo (uid commonAreaId : Nat) (dest : Dest) (location : Nat) :
    DB → List AddItem → Except AddErr DB
  | cur, [] => .ok cur
  | cur, item :: rest =>
    if item.isNew then
      if item.name = "" ∨ item.quantity ≤ 0 then
        addGo uid commonAreaId dest location cur rest
      else
        match cur.items.find? (fun it => lowerEq it.name item.name && decide (it.userId = uid)) with
        | some it =>
          match applyMove commonAreaId dest location cur it.id item.quantity with
          | .error e => .error e
          | .ok cur' => addGo uid commonAreaId dest location cur' rest
        | none =>
          let bc := item.barcode.getD ""
          if bc ≠ "" ∧ hasBarcode cur uid bc then
            .error (.barcodeTaken bc)
          else
            let newItem : Item := ⟨cur.nextItemId, uid, item.name, if bc = "" then none else some bc⟩
            let cur' := { cur with items := cur.items ++ [newItem], nextItemId := cur.nextItemId + 1 }
            match applyMove commonAreaId dest location cur' newItem.id item.quantity with
            | .error e => .error e
            | .ok cur'' => addGo uid commonAreaId dest location cur'' rest
    else
      if item.inventory_id = 0 ∨ item.quantity ≤ 0 then
        addGo uid commonAreaId dest location cur rest
      else if owns cur uid item.inventory_id = false then
        .error .notOwned
      else
        match applyMove commonAreaId dest location cur item.inventory_id item.quantity with
        | .error e => .error e
        | .ok cur' => addGo uid commonAreaId dest location cur' rest

/-- `POST /api/inventory/add`: resolves the account's Common Area location,
then runs the batch loop inside one transaction. -/
def addOp (db : DB) (uid : Nat) (rq : AddReq) : Except AddErr DB :=
  match db.locations.find? (fun l => decide (l.name = "Common Area" ∧ l.userId = uid)) with
  | none => .error .commonAreaNotFound
  | some ca => addGo uid ca.id rq.destination rq.location db rq.supplies

/-- The add handler's case-insensitive name match within the account:
`SELECT id FROM inventory WHERE name ILIKE $1 AND user_id = $2` is non-empty. -/
def matchingItem (db : DB) (uid : Nat) (n : String) : Bool :=
  db.items.any fun x => lowerEq x.name n && decide (x.userId = uid)

/-! ### POST /api/barcode/checkin and /api/barcode/consume (routes/barcode.js) -/

structure CheckinReq where
  inventory_id : Nat
  location_id : Nat
  quantity : Int
deriving Repr, DecidableEq

inductive CheckinErr
  | insufficient
  | cannotSubtractNonexistent
deriving Repr, DecidableEq

/-- `POST /api/barcode/checkin`: reads the current quantity (0 if no row),
adds the (possibly negative or zero) requested quantity, rejects a negative
result, and either sets the existing row to the sum or inserts a new row. -/
def checkinOp (db : DB) (rq : CheckinReq) : Except CheckinErr DB :=
  let current : Int := qtyAt db rq.inventory_id rq.location_id
  let newQty : Int := current + rq.quantity
  if newQty < 0 then .error .insufficient
  else
    match findRow db rq.inventory_id rq.location_id with
    | some _ => .ok (updQty db rq.inventory_id rq.location_id (fun _ => newQty))
    | none =>
      if rq.quantity < 0 then .error .cannotSubtractNonexistent
      else .ok (insertRow db rq.inventory_id rq.location_id rq.quantity)

structure ScanConsumeReq where
  inventory_id : Nat
  location_id : Nat
  quantity : Int
deriving Repr, DecidableEq

inductive ScanConsumeErr
  | invalidQuantity
  | unauthorized
  | notFoundHere
  | insufficient
deriving Repr, DecidableEq

/-- `POST /api/barcode/consume`: positive quantity required, ownership
checked against the item's `user_id`, then a guarded decrement. -/
def scanConsumeOp (db : DB) (uid : Nat) (rq : ScanConsumeReq) : Except ScanConsumeErr DB :=
  if rq.quantity ≤ 0 then .error .invalidQuantity
  else
    match db.items.find? (fun it => decide (it.id = rq.inventory_id)) with
    | none => .error .unauthorized
    | some it =>
      if it.userId ≠ uid then .error .unauthorized
      else
        match findRow db rq.inventory_id rq.location_id with
        | none => .error .notFoundHere
        | some r =>
          if r.qty < rq.quantity then .error .insufficient
          else .ok (updQty db rq.inventory_id rq.location_id (· - rq.quantity))

/-! ### POST /api/logs (routes/logs.js) -/

structure LogReq where
  user_id : Nat
  op_id : Nat
  supply_id : Nat
  quantity : Int
  action : String
  procedure_id : Option Nat
deriving Repr, DecidableEq

inductive LogErr
  | supplyNotFound
deriving Repr, DecidableEq

/-- The cost-per-unit the log handler reads:
`parseFloat(supplyRows[0].cost_per_unit || 0)` against the current `supplies`
row, `0` when the column is NULL. -/
def currentUnitCost (db : DB) (sid : Nat) : Rat :=
  match db.supplies.find? (fun s => decide (s.id = sid)) with
  | some s => s.costPerUnit.getD 0
  | none => 0

/-- Quantity-on-hand of a global supply. -/
def supplyQty (db : DB) (sid : Nat) : Int :=
  match db.supplies.find? (fun s => decide (s.id = sid)) with
  | some s => s.qty
  | none => 0

/-- Quantity of a per-operatory stock row (0 when absent). -/
def opQty (db : DB) (opId sid : Nat) : Int :=
  match db.opSup.find? (fun r => decide (r.opId = opId ∧ r.supplyId = sid)) with
  | some r => r.qty
  | none => 0

/-- The audit-log row the log handler inserts for a request against a state. -/
def logEntryOf (db : DB) (rq : LogReq) : LogEntry :=
  ⟨rq.user_id, rq.op_id, rq.supply_id, rq.quantity, rq.action,
    currentUnitCost db rq.supply_id,
    currentUnitCost db rq.supply_id * (rq.quantity : Rat), rq.procedure_id⟩

/-- `POST /api/logs`: reads the supply's current cost-per-unit, applies an
unguarded `quantity ± q` update to the matching `op_supplies` row (if any) and
to the `supplies` row, and appends one `supply_logs` row.  There is no check
that either quantity stays non-negative. -/
def logOp (db : DB) (rq : LogReq) : Except LogErr DB :=
  match db.supplies.find? (fun s => decide (s.id = rq.supply_id)) with
  | none => .error .supplyNotFound
  | some _ =>
    let delta : Int := if rq.action = "use" then -rq.quantity else rq.quantity
    .ok { db with
      opSup := db.opSup.map fun r =>
        if r.opId = rq.op_id ∧ r.supplyId = rq.supply_id then { r with qty := r.qty + delta } else r,
      supplies := db.supplies.map fun s =>
        if s.id = rq.supply_id then { s with qty := s.qty + delta } else s,
      logs := db.logs ++ [logEntryOf db rq] }

/-! ### PUT /api/supplies/:id (routes/supplies.js), projected to the modelled columns -/

/-- `PUT /api/supplies/:id`: overwrites the supply's quantity and
cost-per-unit (among other catalog columns); 404 when the row is absent. -/
def updateSupplyOp (db : DB) (sid : Nat) (q : Int) (cost : Option Rat) : Except Unit DB :=
  if db.supplies.any (fun s => decide (s.id = sid)) then
    .ok { db with supplies := db.supplies.map fun s =>
      if s.id = sid then { s with qty := q, costPerUnit := cost } else s }
  else .error ()

/-! ### Operations as state transformers -/

/-- One request against the server, tagged by endpoint. -/
inductive Op
  | add (uid : Nat) (rq : AddReq)
  | consume (uid loc : Nat) (items : List ConsumeItem)
  | transfer (uid : Nat) (rq : TransferReq)
  | checkin (rq : CheckinReq)
  | scanConsume (uid : Nat) (rq : ScanConsumeReq)
  | logMove (rq : LogReq)
  | updateSupply (sid : Nat) (q : Int) (cost : Option Rat)
deriving Repr, DecidableEq

/-- Commit-or-rollback: a transaction that completes yields its final state,
and any error path (all of which issue `ROLLBACK` in the source) leaves the
database as it was. -/
def commitOr (db : DB) : Except ε DB → DB
  | .ok d => d
  | .error _ => db

def exOk : Except ε α → Bool
  | .ok _ => true
  | .error _ => false

/-- The committed state after one request. -/
def applyOp (db : DB) : Op → DB
  | .add uid rq => commitOr db (addOp db uid rq)
  | .consume uid loc items => commitOr db (consumeOp db uid loc items)
  | .transfer uid rq => commitOr db (transferOp db uid rq)
  | .checkin rq => commitOr db (checkinOp db rq)
  | .scanConsume uid rq => commitOr db (scanConsumeOp db uid rq)
  | .logMove rq => commitOr db (logOp db rq)
  | .updateSupply sid q c => commitOr db (updateSupplyOp db sid q c)

/-- Whether the request's transaction commits. -/
def opCommits (db : DB) : Op → Bool
  | .add uid rq => exOk (addOp db uid rq)
  | .consume uid loc items => exOk (consumeOp db uid loc items)
  | .transfer uid rq => exOk (transferOp db uid rq)
  | .checkin rq => exOk (checkinOp db rq)
  | .scanConsume uid rq => exOk (scanConsumeOp db uid rq)
  | .logMove rq => exOk (logOp db rq)
  | .updateSupply sid q c => exOk (updateSupplyOp db sid q c)

/-! ### Invariants -/

def rowKey (r : LocRow) : Nat × Nat :=
  (r.invId, r.locId)

/-- The uniqueness constraint of the stock table: at most one row per
(inventory_id, location_id) pair. -/
def GoodKeysL (l : List LocRow) : Prop :=
  (l.map rowKey).Nodup

def GoodKeys (db : DB) : Prop :=
  GoodKeysL db.locInv

/-- Every stock quantity in the state is non-negative: the per-location
rows, the per-operatory rows, and the global quantities on hand. -/
def NonNegDB (db : DB) : Prop :=
  (∀ r ∈ db.locInv, 0 ≤ r.qty) ∧ (∀ r ∈ db.opSup, 0 ≤ r.qty) ∧ (∀ s ∈ db.supplies, 0 ≤ s.qty)

/-- The stock-moving endpoints (excluding the log route and catalog updates),
with transfers restricted to a positive requested quantity — the only
movement endpoint that does not itself reject non-positive deltas. -/
def movementOk : Op → Bool
  | .logMove _ => false
  | .updateSupply _ _ _ => false
  | .transfer _ rq => decide (0 < rq.quantity)
  | _ => true

instance : DecidablePred GoodKeysL := fun l =>
  inferInstanceAs (Decidable (l.map rowKey).Nodup)

instance : DecidablePred GoodKeys := fun db =>
  inferInstanceAs (Decidable (GoodKeysL db.locInv))

instance : DecidablePred NonNegDB := fun db =>
  inferInstanceAs (Decidable ((∀ r ∈ db.locInv, 0 ≤ r.qty) ∧
    (∀ r ∈ db.opSup, 0 ≤ r.qty) ∧ (∀ s ∈ db.supplies, 0 ≤ s.qty)))

/-! ### The retry helpers of db/utils.js (`query` and `transaction`) -/

/-- An error raised by the store, carrying its PostgreSQL error code. -/
structure SqlError where
  code : String
deriving Repr, DecidableEq

/-- The codes the retry helpers never retry: `23505` (unique constraint
violation), `23503` (foreign-key violation), `42P01` (table does not exist),
`42703` (column does not exist). -/
def nonRetryable (e : SqlError) : Bool :=
  e.code == "23505" || e.code == "23503" || e.code == "42P01" || e.code == "42703"

/-- The backoff delay taken after a failed attempt (1-based attempt number):
`Math.min(1000 * Math.pow(2, attempt - 1), 5000)`. -/
def backoffDelay (attempt : Nat) : Nat :=
  min (1000 * 2 ^ (attempt - 1)) 5000

/-- Pure model of the retry loop of `query`: `outcomes` lists the result each
successive attempt would produce, and its length is the `retries` bound (3 by
default in the source).  The loop stops at the first success, at the first
non-retryable error, or — surfacing the last error — when the attempts are
exhausted.  Returns the surfaced result paired with the number of attempts
used, or `none` when the bound is `0` (the loop body never runs). -/
def runAttempts {α : Type} : List (Except SqlError α) → Option (Except SqlError α × Nat)
  | [] => none
  | o :: rest =>
    match o with
    | .ok v => some (.ok v, 1)
    | .error e =>
      if nonRetryable e then some (.error e, 1)
      else
        match runAttempts rest with
        | none => some (.error e, 1)
        | some (r, n) => some (r, n + 1)

/-- Pure model of the retry loop of `transaction`: each attempt runs the whole
transaction body against the same base state (a failed attempt is rolled back
before any retry), commits on success, and follows the same
stop-on-non-retryable policy as `query`. -/
def transactionAttempts {α : Type} :
    List (DB → Except SqlError (DB × α)) → DB → Option (Except SqlError (DB × α) × Nat)
  | [], _ => none
  | body :: rest, db =>
    match body db with
    | .ok r => some (.ok r, 1)
    | .error e =>
      if nonRetryable e then some (.error e, 1)
      else
        match transactionAttempts rest db with
        | none => some (.error e, 1)
        | some (r, n) => some (r, n + 1)

/-! ## Helper lemmas about the row combinators -/

@[simp]
lemma updQty_items (db : DB) (inv loc : Nat) (f : Int → Int) :
    (updQty db inv loc f).items = db.items := rfl

@[simp]
lemma updQty_locations (db : DB) (inv loc : Nat) (f : Int → Int) :
    (updQty db inv loc f).locations = db.locations := rfl

@[simp]
lemma updQty_supplies (db : DB) (inv loc : Nat) (f : Int → Int) :
    (updQty db inv loc f).supplies = db.supplies := rfl

@[simp]
lemma updQty_opSup (db : DB) (inv loc : Nat) (f : Int → Int) :
    (updQty db inv loc f).opSup = db.opSup := rfl

@[simp]
lemma updQty_logs (db : DB) (inv loc : Nat) (f : Int → Int) :
    (updQty db inv loc f).logs = db.logs := rfl

@[simp]
lemma updQty_locInv (db : DB) (inv loc : Nat) (f : Int → Int) :
    (updQty db inv loc f).locInv = updQtyL db.locInv inv loc f := rfl

@[simp]
lemma updQty_nextItemId (db : DB) (inv loc : Nat) (f : Int → Int) :
    (updQty db inv loc f).nextItemId = db.nextItemId := rfl

@[simp]
lemma insertRow_items (db : DB) (inv loc : Nat) (q : Int) :
    (insertRow db inv loc q).items = db.items := rfl

@[simp]
lemma insertRow_locations (db : DB) (inv loc : Nat) (q : Int) :
    (insertRow db inv loc q).locations = db.locations := rfl

@[simp]
lemma insertRow_supplies (db : DB) (inv loc : Nat) (q : Int) :
    (insertRow db inv loc q).supplies = db.supplies := rfl

@[simp]
lemma insertRow_opSup (db : DB) (inv loc : Nat) (q : Int) :
    (insertRow db inv loc q).opSup = db.opSup := rfl

@[simp]
lemma insertRow_logs (db : DB) (inv loc : Nat) (q : Int) :
    (insertRow db inv loc q).logs = db.logs := rfl

@[simp]
lemma insertRow_locInv (db : DB) (inv loc : Nat) (q : Int) :
    (insertRow db inv loc q).locInv = db.locInv ++ [⟨inv, loc, q⟩] := rfl

@[simp]
lemma insertRow_nextItemId (db : DB) (inv loc : Nat) (q : Int) :
    (insertRow db inv loc q).nextItemId = db.nextItemId := rfl

lemma updFn_invId (inv loc : Nat) (f : Int → Int) (r : LocRow) :
    (updFn inv loc f r).invId = r.invId := by
  unfold updFn; split <;> rfl

lemma updFn_locId (inv loc : Nat) (f : Int → Int) (r : LocRow) :
    (updFn inv loc f r).locId = r.locId := by
  unfold updFn; split <;> rfl

lemma rowKey_updFn (inv loc : Nat) (f : Int → Int) (r : LocRow) :
    rowKey (updFn inv loc f r) = rowKey r := by
  unfold rowKey updFn; split <;> rfl

lemma updFn_of_match {inv loc : Nat} {r : LocRow} (h1 : r.invId = inv) (h2 : r.locId = loc)
    (f : Int → Int) : updFn inv loc f r = { r with qty := f r.qty } := by
  unfold updFn
  rw [if_pos ⟨h1, h2⟩]

lemma updFn_of_nomatch {inv loc : Nat} {r : LocRow} (h : ¬(r.invId = inv ∧ r.locId = loc))
    (f : Int → Int) : updFn inv loc f r = r := by
  unfold updFn
  rw [if_neg h]

lemma updQtyL_map_rowKey (l : List LocRow) (inv loc : Nat) (f : Int → Int) :
    (updQtyL l inv loc f).map rowKey = l.map rowKey := by
  unfold updQtyL
  rw [List.map_map]
  exact List.map_congr_left fun r _ => rowKey_updFn inv loc f r

lemma findRowL_prop {l : List LocRow} {inv loc : Nat} {r : LocRow}
    (h : findRowL l inv loc = some r) : r.invId = inv ∧ r.locId = loc := by
  unfold findRowL at h
  simpa using List.find?_some h

lemma findRowL_mem {l : List LocRow} {inv loc : Nat} {r : LocRow}
    (h : findRowL l inv loc = some r) : r ∈ l := by
  unfold findRowL at h
  exact List.mem_of_find?_eq_some h

lemma findRowL_updQtyL (l : List LocRow) (inv loc inv' loc' : Nat) (f : Int → Int) :
    findRowL (updQtyL l inv loc f) inv' loc' = (findRowL l inv' loc').map (updFn inv loc f) := by
  unfold findRowL updQtyL
  rw [List.find?_map]
  have hp : ((fun r : LocRow => decide (r.invId = inv' ∧ r.locId = loc')) ∘ updFn inv loc f)
      = (fun r : LocRow => decide (r.invId = inv' ∧ r.locId = loc')) := by
    funext r
    simp only [Function.comp_apply, updFn_invId, updFn_locId]
  rw [hp]

lemma findRowL_updQtyL_self {l : List LocRow} {inv loc : Nat} {r : LocRow}
    (h : findRowL l inv loc = some r) (f : Int → Int) :
    findRowL (updQtyL l inv loc f) inv loc = some { r with qty := f r.qty } := by
  have hp := findRowL_prop h
  rw [findRowL_updQtyL, h, Option.map_some', updFn_of_match hp.1 hp.2]

lemma findRowL_updQtyL_none {l : List LocRow} {inv loc : Nat}
    (h : findRowL l inv loc = none) (f : Int → Int) :
    findRowL (updQtyL l inv loc f) inv loc = none := by
  rw [findRowL_updQtyL, h, Option.map_none']

lemma findRowL_updQtyL_other {l : List LocRow} {inv loc inv' loc' : Nat}
    (h : (inv, loc) ≠ (inv', loc')) (f : Int → Int) :
    findRowL (updQtyL l inv loc f) inv' loc' = findRowL l inv' loc' := by
  rw [findRowL_updQtyL]
  cases hf : findRowL l inv' loc' with
  | none => rfl
  | some r =>
    have hp : r.invId = inv' ∧ r.locId = loc' := findRowL_prop hf
    rw [Option.map_some', updFn_of_nomatch]
    intro hc
    exact h (by rw [← hc.1, ← hc.2, hp.1, hp.2])

lemma findRowL_append_single (l : List LocRow) (r0 : LocRow) (inv loc : Nat) :
    findRowL (l ++ [r0]) inv loc =
      (findRowL l inv loc).or (if r0.invId = inv ∧ r0.locId = loc then some r0 else none) := by
  unfold findRowL
  rw [List.find?_append]
  congr 1
  by_cases h : r0.invId = inv ∧ r0.locId = loc
  · rw [if_pos h]
    exact List.find?_cons_of_pos _ (decide_eq_true h)
  · rw [if_neg h]
    simp [List.find?_cons_of_neg, h]

lemma matching_eq_of_goodKeys {l : List LocRow} (h : GoodKeysL l) {inv loc : Nat} {r : LocRow}
    (hf : findRowL l inv loc = some r) :
    ∀ r' ∈ l, r'.invId = inv → r'.locId = loc → r' = r := by
  intro r' hm h1 h2
  have hrm := findRowL_mem hf
  have hr : r.invId = inv ∧ r.locId = loc := findRowL_prop hf
  have hkey : rowKey r' = rowKey r := by
    simp [rowKey, h1, h2, hr.1, hr.2]
  exact List.inj_on_of_nodup_map h hm hrm hkey

lemma goodKeysL_updQtyL {l : List LocRow} (h : GoodKeysL l) (inv loc : Nat) (f : Int → Int) :
    GoodKeysL (updQtyL l inv loc f) := by
  unfold GoodKeysL at h ⊢
  rwa [updQtyL_map_rowKey]

lemma goodKeysL_append {l : List LocRow} (h : GoodKeysL l) {inv loc : Nat}
    (hnone : findRowL l inv loc = none) (q : Int) :
    GoodKeysL (l ++ [(⟨inv, loc, q⟩ : LocRow)]) := by
  unfold GoodKeysL at h ⊢
  rw [List.map_append]
  refine List.Nodup.append h (List.nodup_singleton _) ?_
  intro k hk1 hk2
  simp only [List.map_cons, List.map_nil, List.mem_singleton] at hk2
  subst hk2
  rw [List.mem_map] at hk1
  obtain ⟨r, hrm, hrk⟩ := hk1
  have := List.find?_eq_none.mp hnone r hrm
  apply this
  have h1 : r.invId = inv := congrArg Prod.fst hrk
  have h2 : r.locId = loc := congrArg Prod.snd hrk
  simp [h1, h2]

lemma nonneg_updQtyL {l : List LocRow} (hl : ∀ r ∈ l, 0 ≤ r.qty) {inv loc : Nat} {f : Int → Int}
    (hf : ∀ r ∈ l, r.invId = inv → r.locId = loc → 0 ≤ f r.qty) :
    ∀ r ∈ updQtyL l inv loc f, 0 ≤ r.qty := by
  intro r hr
  unfold updQtyL at hr
  rw [List.mem_map] at hr
  obtain ⟨a, ha, rfl⟩ := hr
  by_cases h : a.invId = inv ∧ a.locId = loc
  · rw [updFn_of_match h.1 h.2]
    exact hf a ha h.1 h.2
  · rw [updFn_of_nomatch h]
    exact hl a ha

lemma nonneg_append_single {l : List LocRow} (hl : ∀ r ∈ l, 0 ≤ r.qty) {r0 : LocRow}
    (h0 : 0 ≤ r0.qty) : ∀ r ∈ l ++ [r0], 0 ≤ r.qty := by
  intro r hr
  rw [List.mem_append, List.mem_singleton] at hr
  rcases hr with hr | rfl
  · exact hl r hr
  · exact h0

/-! ## Reading quantities after updates and inserts -/

lemma qtyAt_of_findRow_some {db : DB} {inv loc : Nat} {r : LocRow}
    (h : findRow db inv loc = some r) : qtyAt db inv loc = r.qty := by
  rw [qtyAt, h]; rfl

lemma qtyAt_of_findRow_none {db : DB} {inv loc : Nat}
    (h : findRow db inv loc = none) : qtyAt db inv loc = 0 := by
  rw [qtyAt, h]; rfl

lemma findRow_updQty_self {db : DB} {inv loc : Nat} {r : LocRow}
    (h : findRow db inv loc = some r) (f : Int → Int) :
    findRow (updQty db inv loc f) inv loc = some { r with qty := f r.qty } :=
  findRowL_updQtyL_self h f

lemma findRow_updQty_other {db : DB} {inv loc inv' loc' : Nat}
    (h : (inv, loc) ≠ (inv', loc')) (f : Int → Int) :
    findRow (updQty db inv loc f) inv' loc' = findRow db inv' loc' :=
  findRowL_updQtyL_other h f

lemma qtyAt_updQty_self {db : DB} {inv loc : Nat} {r : LocRow}
    (h : findRow db inv loc = some r) (f : Int → Int) :
    qtyAt (updQty db inv loc f) inv loc = f r.qty := by
  rw [qtyAt, findRow, ← findRow, findRow_updQty_self h f]; rfl

lemma qtyAt_updQty_other {db : DB} {inv loc inv' loc' : Nat}
    (h : (inv, loc) ≠ (inv', loc')) (f : Int → Int) :
    qtyAt (updQty db inv loc f) inv' loc' = qtyAt db inv' loc' := by
  rw [qtyAt, findRow, ← findRow, findRow_updQty_other h f]; rfl

lemma findRow_insert_self {db : DB} {inv loc : Nat} (q : Int) :
    (h : findRow db inv loc = none) →
    findRow (insertRow db inv loc q) inv loc = some ⟨inv, loc, q⟩ := by
  intro h
  rw [findRow, insertRow]
  show findRowL (db.locInv ++ [⟨inv, loc, q⟩]) inv loc = _
  rw [findRowL_append_single, ← findRow, h]
  simp

lemma findRow_insert_other {db : DB} {inv loc inv' loc' : Nat}
    (h : (inv, loc) ≠ (inv', loc')) (q : Int) :
    findRow (insertRow db inv loc q) inv' loc' = findRow db inv' loc' := by
  rw [findRow, insertRow]
  show findRowL (db.locInv ++ [⟨inv, loc, q⟩]) inv' loc' = _
  rw [findRowL_append_single]
  have : ¬((⟨inv, loc, q⟩ : LocRow).invId = inv' ∧ (⟨inv, loc, q⟩ : LocRow).locId = loc') := by
    intro hc
    exact h (by simpa using And.intro hc.1 hc.2)
  rw [if_neg this]
  rw [Option.or_none]
  rfl

lemma qtyAt_insert_self {db : DB} {inv loc : Nat} (q : Int)
    (h : findRow db inv loc = none) :
    qtyAt (insertRow db inv loc q) inv loc = q := by
  rw [qtyAt, findRow_insert_self q h]; rfl

lemma qtyAt_insert_other {db : DB} {inv loc inv' loc' : Nat}
    (h : (inv, loc) ≠ (inv', loc')) (q : Int) :
    qtyAt (insertRow db inv loc q) inv' loc' = qtyAt db inv' loc' := by
  rw [qtyAt, findRow_insert_other h q]; rfl

lemma upsertAdd_items (db : DB) (inv loc : Nat) (q : Int) :
    (upsertAdd db inv loc q).items = db.items := by
  unfold upsertAdd
  cases findRow db inv loc <;> rfl

lemma upsertAdd_locations (db : DB) (inv loc : Nat) (q : Int) :
    (upsertAdd db inv loc q).locations = db.locations := by
  unfold upsertAdd
  cases findRow db inv loc <;> rfl

lemma upsertAdd_supplies (db : DB) (inv loc : Nat) (q : Int) :
    (upsertAdd db inv loc q).supplies = db.supplies := by
  unfold upsertAdd
  cases findRow db inv loc <;> rfl

lemma upsertAdd_opSup (db : DB) (inv loc : Nat) (q : Int) :
    (upsertAdd db inv loc q).opSup = db.opSup := by
  unfold upsertAdd
  cases findRow db inv loc <;> rfl

lemma upsertAdd_logs (db : DB) (inv loc : Nat) (q : Int) :
    (upsertAdd db inv loc q).logs = db.logs := by
  unfold upsertAdd
  cases findRow db inv loc <;> rfl

lemma qtyAt_upsertAdd_self (db : DB) (inv loc : Nat) (q : Int) :
    qtyAt (upsertAdd db inv loc q) inv loc = qtyAt db inv loc + q := by
  unfold upsertAdd
  cases h : findRow db inv loc with
  | none => rw [qtyAt_insert_self q h, qtyAt_of_findRow_none h, Int.zero_add]
  | some r => rw [qtyAt_updQty_self h, qtyAt_of_findRow_some h]

lemma qtyAt_upsertAdd_other {db : DB} {inv loc inv' loc' : Nat}
    (h : (inv, loc) ≠ (inv', loc')) (q : Int) :
    qtyAt (upsertAdd db inv loc q) inv' loc' = qtyAt db inv' loc' := by
  unfold upsertAdd
  cases hf : findRow db inv loc with
  | none => rw [qtyAt_insert_other h q]
  | some r => rw [qtyAt_updQty_other h]

lemma findRow_upsertAdd_self_isSome (db : DB) (inv loc : Nat) (q : Int) :
    (findRow (upsertAdd db inv loc q) inv loc).isSome := by
  unfold upsertAdd
  cases h : findRow db inv loc with
  | none => rw [findRow_insert_self q h]; rfl
  | some r => rw [findRow_updQty_self h]; rfl

/-! ## Cancellation: decrement-then-accumulate on the same key -/

lemma updFn_cancel (inv loc : Nat) (q : Int) (r : LocRow) :
    updFn inv loc (· + q) (updFn inv loc (· - q) r) = r := by
  by_cases h : r.invId = inv ∧ r.locId = loc
  · rw [updFn_of_match h.1 h.2,
      updFn_of_match (r := LocRow.mk r.invId r.locId (r.qty - q)) h.1 h.2]
    show LocRow.mk r.invId r.locId (r.qty - q + q) = r
    rw [Int.sub_add_cancel]
  · rw [updFn_of_nomatch h, updFn_of_nomatch h]

lemma updQtyL_cancel (l : List LocRow) (inv loc : Nat) (q : Int) :
    updQtyL (updQtyL l inv loc (· - q)) inv loc (· + q) = l := by
  unfold updQtyL
  rw [List.map_map]
  calc l.map (updFn inv loc (· + q) ∘ updFn inv loc (· - q))
      = l.map id := List.map_congr_left fun r _ => updFn_cancel inv loc q r
    _ = l := List.map_id l

/-! ## Successful transfers -/

lemma transferOp_ok {db db' : DB} {uid : Nat} {rq : TransferReq}
    (h : transferOp db uid rq = .ok db') :
    ∃ r, findRow db rq.inventory_id rq.source_location_id = some r ∧
      ¬(r.qty < rq.quantity) ∧
      db' = upsertAdd (updQty db rq.inventory_id rq.source_location_id (· - rq.quantity))
              rq.inventory_id rq.destination_location_id rq.quantity := by
  unfold transferOp at h
  split at h
  · simp at h
  · split at h
    · simp at h
    · split at h
      · simp at h
      · rename_i r hfind
        split at h
        · simp at h
        · rename_i hlt
          simp only [Except.ok.injEq] at h
          exact ⟨r, hfind, hlt, h.symm⟩

/-- C5: for every transfer that succeeds, the sum of the item's quantities at
the source and destination locations is conserved; when the two locations
differ, the source is decremented by exactly the requested quantity, the
destination incremented by exactly that quantity, and a destination row is
created when none existed. -/
theorem c5_transfer_conservation (db db' : DB) (uid : Nat) (rq : TransferReq)
    (h : transferOp db uid rq = .ok db') :
    qtyAt db' rq.inventory_id rq.source_location_id
        + qtyAt db' rq.inventory_id rq.destination_location_id
      = qtyAt db rq.inventory_id rq.source_location_id
        + qtyAt db rq.inventory_id rq.destination_location_id
    ∧ (rq.source_location_id ≠ rq.destination_location_id →
        qtyAt db' rq.inventory_id rq.source_location_id
          = qtyAt db rq.inventory_id rq.source_location_id - rq.quantity
        ∧ qtyAt db' rq.inventory_id rq.destination_location_id
          = qtyAt db rq.inventory_id rq.destination_location_id + rq.quantity
        ∧ (findRow db rq.inventory_id rq.destination_location_id = none →
            (findRow db' rq.inventory_id rq.destination_location_id).isSome)) := by
  obtain ⟨r, hfind, hge, rfl⟩ := transferOp_ok h
  have hsrc : qtyAt db rq.inventory_id rq.source_location_id = r.qty :=
    qtyAt_of_findRow_some hfind
  by_cases hsd : rq.source_location_id = rq.destination_location_id
  · rw [← hsd]
    have h1 : qtyAt (updQty db rq.inventory_id rq.source_location_id (· - rq.quantity))
        rq.inventory_id rq.source_location_id = r.qty - rq.quantity :=
      qtyAt_updQty_self hfind _
    have h2 : qtyAt (upsertAdd (updQty db rq.inventory_id rq.source_location_id (· - rq.quantity))
          rq.inventory_id rq.source_location_id rq.quantity)
        rq.inventory_id rq.source_location_id = r.qty := by
      rw [qtyAt_upsertAdd_self, h1, Int.sub_add_cancel]
    constructor
    · rw [h2, hsrc]
    · intro hne
      exact absurd rfl hne
  · have hkey : ((rq.inventory_id, rq.source_location_id) : Nat × Nat)
        ≠ (rq.inventory_id, rq.destination_location_id) := by
      intro hc
      exact hsd (congrArg Prod.snd hc)
    have h1 : qtyAt (updQty db rq.inventory_id rq.source_location_id (· - rq.quantity))
        rq.inventory_id rq.source_location_id = r.qty - rq.quantity :=
      qtyAt_updQty_self hfind _
    have h2 : qtyAt (upsertAdd (updQty db rq.inventory_id rq.source_location_id (· - rq.quantity))
          rq.inventory_id rq.destination_location_id rq.quantity)
        rq.inventory_id rq.source_location_id = r.qty - rq.quantity := by
      rw [qtyAt_upsertAdd_other hkey.symm, h1]
    have h3 : qtyAt (updQty db rq.inventory_id rq.source_location_id (· - rq.quantity))
        rq.inventory_id rq.destination_location_id
        = qtyAt db rq.inventory_id rq.destination_location_id :=
      qtyAt_updQty_other hkey _
    have h4 : qtyAt (upsertAdd (updQty db rq.inventory_id rq.source_location_id (· - rq.quantity))
          rq.inventory_id rq.destination_location_id rq.quantity)
        rq.inventory_id rq.destination_location_id
        = qtyAt db rq.inventory_id rq.destination_location_id + rq.quantity := by
      rw [qtyAt_upsertAdd_self, h3]
    refine ⟨?_, fun _ => ⟨?_, h4, fun _ => findRow_upsertAdd_self_isSome _ _ _ _⟩⟩
    · rw [h2, h4, hsrc]
      omega
    · rw [h2, hsrc]

/-- C5 witness: a concrete successful transfer of 4 units from location 2 to
location 3 conserves the total. -/
theorem c5_transfer_conservation_witness :
    transferOp (⟨[⟨1, 7, "Gauze", none⟩], [], [⟨1, 2, 6⟩], [], [], [], 10⟩ : DB) 7 ⟨1, 2, 3, 4⟩
      = .ok (⟨[⟨1, 7, "Gauze", none⟩], [], [⟨1, 2, 2⟩, ⟨1, 3, 4⟩], [], [], [], 10⟩ : DB)
    ∧ qtyAt (⟨[⟨1, 7, "Gauze", none⟩], [], [⟨1, 2, 2⟩, ⟨1, 3, 4⟩], [], [], [], 10⟩ : DB) 1 2
        + qtyAt (⟨[⟨1, 7, "Gauze", none⟩], [], [⟨1, 2, 2⟩, ⟨1, 3, 4⟩], [], [], [], 10⟩ : DB) 1 3
      = qtyAt (⟨[⟨1, 7, "Gauze", none⟩], [], [⟨1, 2, 6⟩], [], [], [], 10⟩ : DB) 1 2
        + qtyAt (⟨[⟨1, 7, "Gauze", none⟩], [], [⟨1, 2, 6⟩], [], [], [], 10⟩ : DB) 1 3 :=
  ⟨by decide,
    (c5_transfer_conservation _ _ 7 ⟨1, 2, 3, 4⟩ (by decide)).1⟩

/-- C7 counterexample: a transfer whose source equals its destination is not
rejected — on a state holding 5 units of item 1 at location 2, transferring 3
units from location 2 to location 2 succeeds (and leaves the state unchanged),
where the claim requires the request to fail validation. -/
theorem c7_counterexample :
    transferOp (⟨[⟨1, 9, "Mask", none⟩], [], [⟨1, 2, 5⟩], [], [], [], 10⟩ : DB) 9 ⟨1, 2, 2, 3⟩
      = .ok (⟨[⟨1, 9, "Mask", none⟩], [], [⟨1, 2, 5⟩], [], [], [], 10⟩ : DB) := by
  decide

/-- C7 (amended): a transfer with source equal to destination is accepted
whenever its ordinary validations pass, and the committed state is identical
to the starting state — the decrement of the source row and the
conflict-accumulate on the same row cancel. -/
theorem c7_same_location_transfer (db db' : DB) (uid : Nat) (rq : TransferReq)
    (hsame : rq.source_location_id = rq.destination_location_id)
    (h : transferOp db uid rq = .ok db') : db' = db := by
  obtain ⟨r, hfind, hge, rfl⟩ := transferOp_ok h
  rw [← hsame]
  have hstep := findRow_updQty_self hfind (· - rq.quantity)
  unfold upsertAdd
  rw [hstep]
  show updQty (updQty db rq.inventory_id rq.source_location_id (· - rq.quantity))
      rq.inventory_id rq.source_location_id (· + rq.quantity) = db
  unfold updQty
  rw [updQtyL_cancel]

/-- C7 amended-claim witness: the same-location transfer of the
counterexample state commits exactly the starting state. -/
theorem c7_same_location_transfer_witness :
    transferOp (⟨[⟨1, 9, "Mask", none⟩], [], [⟨1, 2, 5⟩], [], [], [], 10⟩ : DB) 9 ⟨1, 2, 2, 3⟩
      = .ok (⟨[⟨1, 9, "Mask", none⟩], [], [⟨1, 2, 5⟩], [], [], [], 10⟩ : DB)
    ∧ (⟨[⟨1, 9, "Mask", none⟩], [], [⟨1, 2, 5⟩], [], [], [], 10⟩ : DB)
      = ⟨[⟨1, 9, "Mask", none⟩], [], [⟨1, 2, 5⟩], [], [], [], 10⟩ :=
  ⟨by decide, c7_same_location_transfer _ _ 9 ⟨1, 2, 2, 3⟩ rfl (by decide)⟩

/-! ## The scan check-in endpoint -/

lemma checkinOp_eq (db : DB) (rq : CheckinReq) :
    checkinOp db rq =
      if qtyAt db rq.inventory_id rq.location_id + rq.quantity < 0 then
        .error .insufficient
      else
        match findRow db rq.inventory_id rq.location_id with
        | some _ => .ok (updQty db rq.inventory_id rq.location_id
            (fun _ => qtyAt db rq.inventory_id rq.location_id + rq.quantity))
        | none =>
          if rq.quantity < 0 then .error .cannotSubtractNonexistent
          else .ok (insertRow db rq.inventory_id rq.location_id rq.quantity) := rfl

/-- C10: the scan check-in accepts any integer quantity.  The call succeeds
exactly when the current quantity (0 for a missing row) plus the requested
quantity is non-negative; on success the row's quantity becomes that sum, and
when no row existed a row holding the requested (necessarily non-negative)
quantity is inserted — in particular quantities of zero and negative
quantities (acting as decrements) are accepted, with no `quantity > 0`
precondition. -/
theorem c10_checkin_semantics (db : DB) (rq : CheckinReq) :
    (exOk (checkinOp db rq) = true ↔
      0 ≤ qtyAt db rq.inventory_id rq.location_id + rq.quantity)
    ∧ (∀ db', checkinOp db rq = .ok db' →
        qtyAt db' rq.inventory_id rq.location_id
          = qtyAt db rq.inventory_id rq.location_id + rq.quantity)
    ∧ (findRow db rq.inventory_id rq.location_id = none →
        ((exOk (checkinOp db rq) = true ↔ 0 ≤ rq.quantity)
          ∧ (0 ≤ rq.quantity →
              checkinOp db rq = .ok (insertRow db rq.inventory_id rq.location_id rq.quantity)))) := by
  rw [checkinOp_eq]
  by_cases hneg : qtyAt db rq.inventory_id rq.location_id + rq.quantity < 0
  · rw [if_pos hneg]
    refine ⟨?_, ?_, ?_⟩
    · rw [show exOk (Except.error CheckinErr.insufficient : Except CheckinErr DB) = false from rfl]
      simp only [Bool.false_eq_true, false_iff]
      omega
    · intro db' hdb'
      simp at hdb'
    · intro hnone
      rw [qtyAt_of_findRow_none hnone] at hneg
      constructor
      · rw [show exOk (Except.error CheckinErr.insufficient : Except CheckinErr DB) = false from rfl]
        simp only [Bool.false_eq_true, false_iff]
        omega
      · intro hq
        omega
  · rw [if_neg hneg]
    cases hfind : findRow db rq.inventory_id rq.location_id with
    | some r =>
      refine ⟨?_, ?_, ?_⟩
      · simp only [exOk, true_iff]
        omega
      · intro db' hdb'
        simp only [Except.ok.injEq] at hdb'
        subst hdb'
        rw [qtyAt_updQty_self hfind]
      · intro hnone
        exact Option.noConfusion hnone
    | none =>
      rw [qtyAt_of_findRow_none hfind] at hneg ⊢
      have hq : ¬(rq.quantity < 0) := by omega
      rw [if_neg hq]
      refine ⟨?_, ?_, ?_⟩
      · simp only [exOk, true_iff]
        omega
      · intro db' hdb'
        simp only [Except.ok.injEq] at hdb'
        subst hdb'
        rw [qtyAt_insert_self _ hfind]
        omega
      · intro _
        constructor
        · simp only [exOk, true_iff]
          omega
        · intro _
          rfl

/-! ## Single-item consume behaviour -/

/-- C3 counterexample: with 6 units of item 1 (owned by user 7) at location 2,
consuming 10 fails — but the failure for a missing row is a NotFound response,
and the insufficient-stock failure carries only the item id and location id;
its full response message is shown below and contains neither the current
quantity (6) nor the requested quantity (10), where the claim requires an
error payload including both. -/
theorem c3_counterexample :
    consumeOp (⟨[⟨1, 7, "Gauze", none⟩], [], [⟨1, 2, 6⟩], [], [], [], 10⟩ : DB) 7 2 [⟨1, 10⟩]
      = .error (.notEnough 1 2)
    ∧ consumeErrMessage (.notEnough 1 2) = "Not enough quantity of item ID 1 at location 2"
    ∧ consumeOp (⟨[⟨1, 7, "Gauze", none⟩], [], [⟨1, 2, 6⟩], [], [], [], 10⟩ : DB) 7 3 [⟨1, 10⟩]
      = .error (.notFoundAt 1 3)
    ∧ applyOp (⟨[⟨1, 7, "Gauze", none⟩], [], [⟨1, 2, 6⟩], [], [], [], 10⟩ : DB)
        (.consume 7 2 [⟨1, 10⟩])
      = ⟨[⟨1, 7, "Gauze", none⟩], [], [⟨1, 2, 6⟩], [], [], [], 10⟩ := by
  decide

/-- C3 (amended): consuming a positive quantity of an owned item fails with a
NotFound error when the stock row is absent, and fails with an
insufficient-quantity error — whose payload carries only the item and
location ids, not the current or requested quantity — when the current
quantity is smaller than requested; every failure leaves the state unchanged,
and otherwise the quantity is decremented by the requested amount. -/
theorem c3_consume_insufficient (db : DB) (uid loc : Nat) (item : ConsumeItem)
    (hloc : loc ≠ 0) (hid : item.inventory_id ≠ 0) (hq : 0 < item.quantity)
    (hown : owns db uid item.inventory_id = true) :
    (findRow db item.inventory_id loc = none →
        consumeOp db uid loc [item] = .error (.notFoundAt item.inventory_id loc))
    ∧ (∀ r, findRow db item.inventory_id loc = some r → r.qty < item.quantity →
        consumeOp db uid loc [item] = .error (.notEnough item.inventory_id loc))
    ∧ (∀ r, findRow db item.inventory_id loc = some r → item.quantity ≤ r.qty →
        consumeOp db uid loc [item]
            = .ok (updQty db item.inventory_id loc (· - item.quantity))
          ∧ qtyAt (updQty db item.inventory_id loc (· - item.quantity)) item.inventory_id loc
            = r.qty - item.quantity)
    ∧ (exOk (consumeOp db uid loc [item]) = false →
        applyOp db (.consume uid loc [item]) = db) := by
  have hpre : ¬(loc = 0 ∨ ([item] : List ConsumeItem) = []) := by
    rintro (hc | hc)
    · exact hloc hc
    · exact List.noConfusion hc
  have hskip : ¬(item.inventory_id = 0 ∨ item.quantity ≤ 0) := by
    rintro (hc | hc)
    · exact hid hc
    · omega
  have hownne : ¬(owns db uid item.inventory_id = false) := by
    rw [hown]
    simp
  refine ⟨?_, ?_, ?_, ?_⟩
  · intro hnone
    unfold consumeOp
    rw [if_neg hpre]
    simp only [consumeGo, if_neg hskip, if_neg hownne]
    rw [show findRowL db.locInv item.inventory_id loc = none from hnone]
  · intro r hf hlt
    unfold consumeOp
    rw [if_neg hpre]
    simp only [consumeGo, if_neg hskip, if_neg hownne]
    rw [show findRowL db.locInv item.inventory_id loc = some r from hf]
    simp only [if_pos hlt]
  · intro r hf hle
    have hnlt : ¬(r.qty < item.quantity) := by omega
    constructor
    · unfold consumeOp
      rw [if_neg hpre]
      simp only [consumeGo, if_neg hskip, if_neg hownne]
      rw [show findRowL db.locInv item.inventory_id loc = some r from hf]
      simp only [if_neg hnlt]
    · rw [qtyAt_updQty_self hf]
  · intro hx
    cases hres : consumeOp db uid loc [item] with
    | ok d =>
      rw [hres] at hx
      exact absurd hx (by simp [exOk])
    | error e =>
      simp only [applyOp, commitOr, hres]

/-- C3 amended-claim witness: consuming 4 of the 6 units succeeds and leaves
2 units, through the theorem's sufficient-stock branch. -/
theorem c3_consume_insufficient_witness :
    ((2 : Nat) ≠ 0 ∧ (1 : Nat) ≠ 0 ∧ (0 : Int) < 4
      ∧ owns (⟨[⟨1, 7, "Gauze", none⟩], [], [⟨1, 2, 6⟩], [], [], [], 10⟩ : DB) 7 1 = true)
    ∧ consumeOp (⟨[⟨1, 7, "Gauze", none⟩], [], [⟨1, 2, 6⟩], [], [], [], 10⟩ : DB) 7 2 [⟨1, 4⟩]
        = .ok (updQty (⟨[⟨1, 7, "Gauze", none⟩], [], [⟨1, 2, 6⟩], [], [], [], 10⟩ : DB) 1 2 (· - 4)) :=
  ⟨⟨by decide, by decide, by decide, by decide⟩,
    ((c3_consume_insufficient _ 7 2 ⟨1, 4⟩ (by decide) (by decide) (by decide)
      (by decide)).2.2.1 ⟨1, 2, 6⟩ (by decide) (by decide)).1⟩

/-- C10 witness: on a state holding 6 units of item 1 at location 2, a scan
check-in of -6 succeeds and sets the quantity to 0, exercising the theorem at
a negative requested quantity. -/
theorem c10_checkin_semantics_witness :
    checkinOp (⟨[⟨1, 7, "Gauze", none⟩], [], [⟨1, 2, 6⟩], [], [], [], 10⟩ : DB) ⟨1, 2, -6⟩
      = .ok (⟨[⟨1, 7, "Gauze", none⟩], [], [⟨1, 2, 0⟩], [], [], [], 10⟩ : DB)
    ∧ qtyAt (⟨[⟨1, 7, "Gauze", none⟩], [], [⟨1, 2, 0⟩], [], [], [], 10⟩ : DB) 1 2
      = qtyAt (⟨[⟨1, 7, "Gauze", none⟩], [], [⟨1, 2, 6⟩], [], [], [], 10⟩ : DB) 1 2 + (-6) :=
  ⟨by decide,
    (c10_checkin_semantics _ ⟨1, 2, -6⟩).2.1 _ (by decide)⟩

/-! ## Case analysis for the add handler -/

lemma moveSource_cases {commonAreaId : Nat} {dest : Dest} {location : Nat}
    {cur : DB} {invId : Nat} {q : Int} {cur1 : DB} {target : Nat}
    (h : moveSource commonAreaId dest location cur invId q = .ok (cur1, target)) :
    (dest = .transfer ∧ target = location ∧
        ∃ r, findRow cur invId commonAreaId = some r ∧ ¬(r.qty < q) ∧
          cur1 = updQty cur invId commonAreaId (· - q))
    ∨ (dest = .commonArea ∧ cur1 = cur ∧ target = commonAreaId)
    ∨ (dest = .direct ∧ cur1 = cur ∧ target = location) := by
  cases dest with
  | transfer =>
    cases hf : findRow cur invId commonAreaId with
    | none =>
      simp [moveSource, hf] at h
    | some r =>
      simp only [moveSource, hf] at h
      by_cases hlt : r.qty < q
      · rw [if_pos hlt] at h
        simp at h
      · rw [if_neg hlt] at h
        simp only [Except.ok.injEq, Prod.mk.injEq] at h
        exact Or.inl ⟨rfl, h.2.symm, r, rfl, hlt, h.1.symm⟩
  | commonArea =>
    simp only [moveSource, Except.ok.injEq, Prod.mk.injEq] at h
    exact Or.inr (Or.inl ⟨rfl, h.1.symm, h.2.symm⟩)
  | direct =>
    simp only [moveSource, Except.ok.injEq, Prod.mk.injEq] at h
    exact Or.inr (Or.inr ⟨rfl, h.1.symm, h.2.symm⟩)

lemma applyMove_cases {commonAreaId : Nat} {dest : Dest} {location : Nat}
    {cur : DB} {invId : Nat} {q : Int} {cur' : DB}
    (h : applyMove commonAreaId dest location cur invId q = .ok cur') :
    ∃ cur1 target, moveSource commonAreaId dest location cur invId q = .ok (cur1, target)
      ∧ target ≠ 0
      ∧ ((∃ r, findRow cur1 invId target = some r ∧ cur' = updQty cur1 invId target (· + q))
          ∨ (findRow cur1 invId target = none ∧ cur' = insertRow cur1 invId target q)) := by
  cases hms : moveSource commonAreaId dest location cur invId q with
  | error e =>
    simp [applyMove, hms] at h
  | ok p =>
    obtain ⟨cur1, target⟩ := p
    simp only [applyMove, hms] at h
    by_cases ht : target = 0
    · rw [if_pos ht] at h
      simp at h
    · rw [if_neg ht] at h
      refine ⟨cur1, target, rfl, ht, ?_⟩
      cases hf : findRow cur1 invId target with
      | some r =>
        simp only [hf, Except.ok.injEq] at h
        exact Or.inl ⟨r, rfl, h.symm⟩
      | none =>
        simp only [hf, Except.ok.injEq] at h
        exact Or.inr ⟨rfl, h.symm⟩

/-- Everything `moveSource` can change is the stock-row table. -/
lemma moveSource_frame {commonAreaId : Nat} {dest : Dest} {location : Nat}
    {cur : DB} {invId : Nat} {q : Int} {cur1 : DB} {target : Nat}
    (h : moveSource commonAreaId dest location cur invId q = .ok (cur1, target)) :
    cur1.items = cur.items ∧ cur1.locations = cur.locations ∧ cur1.supplies = cur.supplies
      ∧ cur1.opSup = cur.opSup ∧ cur1.logs = cur.logs ∧ cur1.nextItemId = cur.nextItemId := by
  rcases moveSource_cases h with ⟨_, _, r, _, _, rfl⟩ | ⟨_, rfl, _⟩ | ⟨_, rfl, _⟩
  · exact ⟨rfl, rfl, rfl, rfl, rfl, rfl⟩
  · exact ⟨rfl, rfl, rfl, rfl, rfl, rfl⟩
  · exact ⟨rfl, rfl, rfl, rfl, rfl, rfl⟩

/-- Everything `applyMove` can change is the stock-row table. -/
lemma applyMove_frame {commonAreaId : Nat} {dest : Dest} {location : Nat}
    {cur : DB} {invId : Nat} {q : Int} {cur' : DB}
    (h : applyMove commonAreaId dest location cur invId q = .ok cur') :
    cur'.items = cur.items ∧ cur'.locations = cur.locations ∧ cur'.supplies = cur.supplies
      ∧ cur'.opSup = cur.opSup ∧ cur'.logs = cur.logs ∧ cur'.nextItemId = cur.nextItemId := by
  obtain ⟨cur1, target, hms, _, hrest⟩ := applyMove_cases h
  have hf := moveSource_frame hms
  rcases hrest with ⟨r, _, rfl⟩ | ⟨_, rfl⟩
  · exact ⟨hf.1, hf.2.1, hf.2.2.1, hf.2.2.2.1, hf.2.2.2.2.1, hf.2.2.2.2.2⟩
  · exact ⟨hf.1, hf.2.1, hf.2.2.1, hf.2.2.2.1, hf.2.2.2.2.1, hf.2.2.2.2.2⟩

/-! ## The movement handlers never touch the audit log -/

lemma consumeGo_logs (uid loc : Nat) :
    ∀ (items : List ConsumeItem) (cur db' : DB),
      consumeGo uid loc cur items = .ok db' → db'.logs = cur.logs := by
  intro items
  induction items with
  | nil =>
    intro cur db' h
    simp only [consumeGo, Except.ok.injEq] at h
    rw [← h]
  | cons item rest ih =>
    intro cur db' h
    simp only [consumeGo] at h
    split at h
    · exact ih cur db' h
    · split at h
      · simp at h
      · split at h
        · simp at h
        · split at h
          · simp at h
          · have := ih _ db' h
            rw [this]
            rfl

lemma consumeOp_logs {db db' : DB} {uid loc : Nat} {items : List ConsumeItem}
    (h : consumeOp db uid loc items = .ok db') : db'.logs = db.logs := by
  unfold consumeOp at h
  split at h
  · simp at h
  · exact consumeGo_logs uid loc items db db' h

lemma transferOp_logs {db db' : DB} {uid : Nat} {rq : TransferReq}
    (h : transferOp db uid rq = .ok db') : db'.logs = db.logs := by
  obtain ⟨r, _, _, rfl⟩ := transferOp_ok h
  rw [upsertAdd_logs]
  rfl

lemma checkinOp_logs {db db' : DB} {rq : CheckinReq}
    (h : checkinOp db rq = .ok db') : db'.logs = db.logs := by
  rw [checkinOp_eq] at h
  split at h
  · simp at h
  · split at h
    · simp only [Except.ok.injEq] at h
      rw [← h]
      rfl
    · split at h
      · simp at h
      · simp only [Except.ok.injEq] at h
        rw [← h]
        rfl

lemma scanConsumeOp_logs {db db' : DB} {uid : Nat} {rq : ScanConsumeReq}
    (h : scanConsumeOp db uid rq = .ok db') : db'.logs = db.logs := by
  unfold scanConsumeOp at h
  split at h
  · simp at h
  · split at h
    · simp at h
    · split at h
      · simp at h
      · split at h
        · simp at h
        · split at h
          · simp at h
          · simp only [Except.ok.injEq] at h
            rw [← h]
            rfl

lemma addGo_logs (uid commonAreaId : Nat) (dest : Dest) (location : Nat) :
    ∀ (items : List AddItem) (cur db' : DB),
      addGo uid commonAreaId dest location cur items = .ok db' → db'.logs = cur.logs := by
  intro items
  induction items with
  | nil =>
    intro cur db' h
    simp only [addGo, Except.ok.injEq] at h
    rw [← h]
  | cons item rest ih =>
    intro cur db' h
    simp only [addGo] at h
    split at h
    · -- isNew branch
      split at h
      · exact ih cur db' h
      · split at h
        · -- existing item matched by name
          split at h
          · simp at h
          · rename_i cur' hmv
            rw [ih _ db' h, (applyMove_frame hmv).2.2.2.2.1]
        · -- fresh insert then move
          split at h
          · simp at h
          · split at h
            · simp at h
            · rename_i cur'' hmv
              rw [ih _ db' h, (applyMove_frame hmv).2.2.2.2.1]
    · -- existing-item branch
      split at h
      · exact ih cur db' h
      · split at h
        · simp at h
        · split at h
          · simp at h
          · rename_i cur' hmv
            rw [ih _ db' h, (applyMove_frame hmv).2.2.2.2.1]

lemma addOp_logs {db db' : DB} {uid : Nat} {rq : AddReq}
    (h : addOp db uid rq = .ok db') : db'.logs = db.logs := by
  unfold addOp at h
  split at h
  · simp at h
  · exact addGo_logs uid _ rq.destination rq.location rq.supplies db db' h

/-! ## The log handler -/

lemma find?_supply_map (l : List Supply) (sid : Nat) (g : Supply → Supply)
    (hg : ∀ s, (g s).id = s.id) :
    (l.map g).find? (fun s => decide (s.id = sid))
      = (l.find? (fun s => decide (s.id = sid))).map g := by
  rw [List.find?_map]
  have hp : ((fun s : Supply => decide (s.id = sid)) ∘ g)
      = fun s : Supply => decide (s.id = sid) := by
    funext s
    simp only [Function.comp_apply, hg]
  rw [hp]

lemma find_supply_prop {l : List Supply} {sid : Nat} {s : Supply}
    (h : l.find? (fun s => decide (s.id = sid)) = some s) : s.id = sid := by
  simpa using List.find?_some h

lemma supplyQty_map_add {db : DB} {sid : Nat} {s0 : Supply} (delta : Int)
    (hfs : db.supplies.find? (fun s => decide (s.id = sid)) = some s0)
    {db2 : DB}
    (hsup : db2.supplies
      = db.supplies.map (fun s => if s.id = sid then { s with qty := s.qty + delta } else s)) :
    supplyQty db2 sid = supplyQty db sid + delta := by
  have hg : ∀ s : Supply,
      ((if s.id = sid then { s with qty := s.qty + delta } else s) : Supply).id = s.id := by
    intro s
    by_cases h : s.id = sid
    · rw [if_pos h]
    · rw [if_neg h]
  have hid : s0.id = sid := find_supply_prop hfs
  unfold supplyQty
  rw [hsup, find?_supply_map _ _ _ hg, hfs, Option.map_some']
  show ((if s0.id = sid then { s0 with qty := s0.qty + delta } else s0) : Supply).qty
    = s0.qty + delta
  rw [if_pos hid]

lemma logOp_ok {db db' : DB} {rq : LogReq} (h : logOp db rq = .ok db') :
    db'.logs = db.logs ++ [logEntryOf db rq]
    ∧ db'.locInv = db.locInv
    ∧ supplyQty db' rq.supply_id = supplyQty db rq.supply_id
        + (if rq.action = "use" then -rq.quantity else rq.quantity) := by
  unfold logOp at h
  split at h
  · simp at h
  · rename_i s hfs
    simp only [Except.ok.injEq] at h
    subst h
    exact ⟨rfl, rfl, supplyQty_map_add _ hfs rfl⟩

lemma currentUnitCost_map_set {db : DB} {sid : Nat} {s0 : Supply} (q : Int) (c : Option Rat)
    (hfs : db.supplies.find? (fun s => decide (s.id = sid)) = some s0)
    {db2 : DB}
    (hsup : db2.supplies = db.supplies.map
      (fun s => if s.id = sid then { s with qty := q, costPerUnit := c } else s)) :
    currentUnitCost db2 sid = c.getD 0 := by
  have hg : ∀ s : Supply,
      ((if s.id = sid then { s with qty := q, costPerUnit := c } else s) : Supply).id
        = s.id := by
    intro s
    by_cases hs : s.id = sid
    · rw [if_pos hs]
    · rw [if_neg hs]
  unfold currentUnitCost
  rw [hsup, find?_supply_map _ _ _ hg, hfs, Option.map_some']
  show ((if s0.id = sid then { s0 with qty := q, costPerUnit := c } else s0) :
      Supply).costPerUnit.getD 0 = c.getD 0
  rw [if_pos (find_supply_prop hfs)]

lemma updateSupplyOp_cost {db db2 : DB} {sid : Nat} {q : Int} {c : Option Rat}
    (h : updateSupplyOp db sid q c = .ok db2) : currentUnitCost db2 sid = c.getD 0 := by
  unfold updateSupplyOp at h
  split at h
  · rename_i hany
    simp only [Except.ok.injEq] at h
    have hsome : (db.supplies.find? (fun s => decide (s.id = sid))).isSome := by
      rw [List.find?_isSome]
      simpa using hany
    obtain ⟨s0, hfs⟩ := Option.isSome_iff_exists.mp hsome
    have hsup : db2.supplies = db.supplies.map
        (fun s => if s.id = sid then { s with qty := q, costPerUnit := c } else s) := by
      rw [← h]
    exact currentUnitCost_map_set q c hfs hsup
  · exact absurd h (by simp)

/-- C2 counterexample: a consume of 4 units that commits (the quantity at the
location drops from 6 to 2) appends zero audit-log entries, where the claim
requires exactly one matching entry per committed movement. -/
theorem c2_counterexample :
    consumeOp (⟨[⟨1, 7, "Gauze", none⟩], [], [⟨1, 2, 6⟩], [], [], [], 10⟩ : DB) 7 2 [⟨1, 4⟩]
      = .ok (⟨[⟨1, 7, "Gauze", none⟩], [], [⟨1, 2, 2⟩], [], [], [], 10⟩ : DB)
    ∧ (⟨[⟨1, 7, "Gauze", none⟩], [], [⟨1, 2, 2⟩], [], [], [], 10⟩ : DB).logs.length = 0 := by
  decide

/-- C2 (amended): the inventory movement endpoints (batch add, batch consume,
transfer, scan check-in, scan consume) append no audit-log entry whether they
commit or roll back; only the log endpoint appends entries — exactly one per
committed call, whose quantity is the request quantity, whose costs are the
current cost-per-unit and quantity times that cost, and whose signed delta
matches the update applied to the supply's quantity — and a rolled-back
request of any endpoint appends zero entries. -/
theorem c2_audit_log_append :
    (∀ (db db' : DB) (uid loc : Nat) (items : List ConsumeItem),
        consumeOp db uid loc items = .ok db' → db'.logs = db.logs)
    ∧ (∀ (db db' : DB) (uid : Nat) (rq : TransferReq),
        transferOp db uid rq = .ok db' → db'.logs = db.logs)
    ∧ (∀ (db db' : DB) (uid : Nat) (rq : AddReq),
        addOp db uid rq = .ok db' → db'.logs = db.logs)
    ∧ (∀ (db db' : DB) (rq : CheckinReq), checkinOp db rq = .ok db' → db'.logs = db.logs)
    ∧ (∀ (db db' : DB) (uid : Nat) (rq : ScanConsumeReq),
        scanConsumeOp db uid rq = .ok db' → db'.logs = db.logs)
    ∧ (∀ (db db' : DB) (rq : LogReq), logOp db rq = .ok db' →
        db'.logs = db.logs ++ [logEntryOf db rq]
        ∧ (logEntryOf db rq).qty = rq.quantity
        ∧ (logEntryOf db rq).unitCost = currentUnitCost db rq.supply_id
        ∧ (logEntryOf db rq).totalCost = currentUnitCost db rq.supply_id * (rq.quantity : Rat)
        ∧ supplyQty db' rq.supply_id = supplyQty db rq.supply_id
            + (if rq.action = "use" then -rq.quantity else rq.quantity))
    ∧ (∀ (db : DB) (op : Op), opCommits db op = false → (applyOp db op).logs = db.logs) := by
  refine ⟨?_, ?_, ?_, ?_, ?_, ?_, ?_⟩
  · intro db db' uid loc items h
    exact consumeOp_logs h
  · intro db db' uid rq h
    exact transferOp_logs h
  · intro db db' uid rq h
    exact addOp_logs h
  · intro db db' rq h
    exact checkinOp_logs h
  · intro db db' uid rq h
    exact scanConsumeOp_logs h
  · intro db db' rq h
    obtain ⟨h1, _, h3⟩ := logOp_ok h
    exact ⟨h1, rfl, rfl, rfl, h3⟩
  · intro db op hop
    cases op with
    | add uid rq =>
      cases hres : addOp db uid rq with
      | ok d =>
        simp only [opCommits, hres, exOk] at hop
        exact Bool.noConfusion hop
      | error e =>
        simp only [applyOp, hres, commitOr]
    | consume uid loc items =>
      cases hres : consumeOp db uid loc items with
      | ok d =>
        simp only [opCommits, hres, exOk] at hop
        exact Bool.noConfusion hop
      | error e =>
        simp only [applyOp, hres, commitOr]
    | transfer uid rq =>
      cases hres : transferOp db uid rq with
      | ok d =>
        simp only [opCommits, hres, exOk] at hop
        exact Bool.noConfusion hop
      | error e =>
        simp only [applyOp, hres, commitOr]
    | checkin rq =>
      cases hres : checkinOp db rq with
      | ok d =>
        simp only [opCommits, hres, exOk] at hop
        exact Bool.noConfusion hop
      | error e =>
        simp only [applyOp, hres, commitOr]
    | scanConsume uid rq =>
      cases hres : scanConsumeOp db uid rq with
      | ok d =>
        simp only [opCommits, hres, exOk] at hop
        exact Bool.noConfusion hop
      | error e =>
        simp only [applyOp, hres, commitOr]
    | logMove rq =>
      cases hres : logOp db rq with
      | ok d =>
        simp only [opCommits, hres, exOk] at hop
        exact Bool.noConfusion hop
      | error e =>
        simp only [applyOp, hres, commitOr]
    | updateSupply sid q c =>
      cases hres : updateSupplyOp db sid q c with
      | ok d =>
        simp only [opCommits, hres, exOk] at hop
        exact Bool.noConfusion hop
      | error e =>
        simp only [applyOp, hres, commitOr]

/-- C2 amended-claim witness: a committed transfer leaves the audit log
unchanged, through the theorem's transfer conjunct. -/
theorem c2_audit_log_append_witness :
    transferOp (⟨[⟨1, 7, "Gauze", none⟩], [], [⟨1, 2, 6⟩], [], [], [], 10⟩ : DB) 7 ⟨1, 2, 3, 4⟩
      = .ok (⟨[⟨1, 7, "Gauze", none⟩], [], [⟨1, 2, 2⟩, ⟨1, 3, 4⟩], [], [], [], 10⟩ : DB)
    ∧ (⟨[⟨1, 7, "Gauze", none⟩], [], [⟨1, 2, 2⟩, ⟨1, 3, 4⟩], [], [], [], 10⟩ : DB).logs
      = (⟨[⟨1, 7, "Gauze", none⟩], [], [⟨1, 2, 6⟩], [], [], [], 10⟩ : DB).logs :=
  ⟨by decide, c2_audit_log_append.2.1 _ _ 7 ⟨1, 2, 3, 4⟩ (by decide)⟩

/-- C8: the audit-log entry written by a logged consumption carries a unit
cost equal to the supply's cost-per-unit as read from the catalog at the time
of the call, and a total cost equal to the requested quantity times that
current unit cost; in particular, after the catalog cost is updated, a
subsequent logged consumption uses the updated value, not a cost frozen at
receipt time. -/
theorem c8_cost_read_at_call (db db' : DB) (rq : LogReq) (h : logOp db rq = .ok db') :
    db'.logs = db.logs ++ [logEntryOf db rq]
    ∧ (logEntryOf db rq).unitCost = currentUnitCost db rq.supply_id
    ∧ (logEntryOf db rq).totalCost = currentUnitCost db rq.supply_id * (rq.quantity : Rat)
    ∧ (∀ (q' : Int) (c : Option Rat) (db₂ db₃ : DB),
        updateSupplyOp db rq.supply_id q' c = .ok db₂ → logOp db₂ rq = .ok db₃ →
          db₃.logs = db₂.logs ++ [logEntryOf db₂ rq]
          ∧ (logEntryOf db₂ rq).unitCost = c.getD 0
          ∧ (logEntryOf db₂ rq).totalCost = c.getD 0 * (rq.quantity : Rat)) := by
  refine ⟨(logOp_ok h).1, rfl, rfl, ?_⟩
  intro q' c db₂ db₃ hupd hlog
  have hc := updateSupplyOp_cost hupd
  refine ⟨(logOp_ok hlog).1, ?_, ?_⟩
  · show currentUnitCost db₂ rq.supply_id = c.getD 0
    exact hc
  · show currentUnitCost db₂ rq.supply_id * (rq.quantity : Rat) = c.getD 0 * (rq.quantity : Rat)
    rw [hc]

/-- C8 witness: with supply 1 at cost 2 per unit, logging a use of 3 units
appends one entry with unit cost 2 and total cost 6 = 3 × 2. -/
theorem c8_cost_read_at_call_witness :
    logOp (⟨[], [], [], [⟨1, some 2, 10⟩], [], [], 0⟩ : DB) ⟨5, 2, 1, 3, "use", none⟩
      = .ok (⟨[], [], [], [⟨1, some 2, 7⟩], [], [⟨5, 2, 1, 3, "use", 2, 6, none⟩], 0⟩ : DB)
    ∧ (⟨[], [], [], [⟨1, some 2, 7⟩], [], [⟨5, 2, 1, 3, "use", 2, 6, none⟩], 0⟩ : DB).logs
      = (⟨[], [], [], [⟨1, some 2, 10⟩], [], [], 0⟩ : DB).logs
        ++ [logEntryOf (⟨[], [], [], [⟨1, some 2, 10⟩], [], [], 0⟩ : DB) ⟨5, 2, 1, 3, "use", none⟩] := by
  have hlog : logOp (⟨[], [], [], [⟨1, some 2, 10⟩], [], [], 0⟩ : DB) ⟨5, 2, 1, 3, "use", none⟩
      = .ok (⟨[], [], [], [⟨1, some 2, 7⟩], [], [⟨5, 2, 1, 3, "use", 2, 6, none⟩], 0⟩ : DB) := by
    norm_num [logOp, logEntryOf, currentUnitCost, List.find?]
  exact ⟨hlog, (c8_cost_read_at_call _ _ ⟨5, 2, 1, 3, "use", none⟩ hlog).1⟩

/-! ## Batch atomicity -/

/-- C4 counterexample: a batch of three consume movements whose second
movement fails validation — its quantity, -5, is non-positive, a failure of
the spec's Validation class — is not rolled back: the handler skips the
invalid movement with `continue`, commits, and the final state differs from
the state before the batch (movements 1 and 3 are applied: item 1 drops from
10 to 6 and item 3 from 10 to 8), where the claim requires the final state to
equal the state before the batch ran. -/
theorem c4_counterexample :
    ((-5 : Int) ≤ 0)
    ∧ consumeOp
        (⟨[⟨1, 7, "A", none⟩, ⟨2, 7, "B", none⟩, ⟨3, 7, "C", none⟩], [],
          [⟨1, 2, 10⟩, ⟨2, 2, 1⟩, ⟨3, 2, 10⟩], [], [], [], 10⟩ : DB)
        7 2 [⟨1, 4⟩, ⟨2, -5⟩, ⟨3, 2⟩]
      = .ok (⟨[⟨1, 7, "A", none⟩, ⟨2, 7, "B", none⟩, ⟨3, 7, "C", none⟩], [],
          [⟨1, 2, 6⟩, ⟨2, 2, 1⟩, ⟨3, 2, 8⟩], [], [], [], 10⟩ : DB)
    ∧ (⟨[⟨1, 7, "A", none⟩, ⟨2, 7, "B", none⟩, ⟨3, 7, "C", none⟩], [],
          [⟨1, 2, 6⟩, ⟨2, 2, 1⟩, ⟨3, 2, 8⟩], [], [], [], 10⟩ : DB)
      ≠ ⟨[⟨1, 7, "A", none⟩, ⟨2, 7, "B", none⟩, ⟨3, 7, "C", none⟩], [],
          [⟨1, 2, 10⟩, ⟨2, 2, 1⟩, ⟨3, 2, 10⟩], [], [], [], 10⟩ := by
  decide

/-- C4 (amended): the multi-item endpoints (batch add / check-in and batch
consume) are all-or-nothing for the failures they check: whenever the batch
does not commit, the final state equals the state before the batch ran — no
movement is partially applied.  But a movement with a non-positive quantity
or a missing item id does not fail the batch: both handlers skip it with
`continue` and the remaining movements commit. -/
theorem c4_batch_atomicity :
    (∀ (db : DB) (uid : Nat) (rq : AddReq),
        exOk (addOp db uid rq) = false → applyOp db (.add uid rq) = db)
    ∧ (∀ (db : DB) (uid loc : Nat) (items : List ConsumeItem),
        exOk (consumeOp db uid loc items) = false → applyOp db (.consume uid loc items) = db)
    ∧ (∀ (uid loc : Nat) (cur : DB) (item : ConsumeItem) (rest : List ConsumeItem),
        item.inventory_id = 0 ∨ item.quantity ≤ 0 →
        consumeGo uid loc cur (item :: rest) = consumeGo uid loc cur rest)
    ∧ (∀ (uid ca : Nat) (dest : Dest) (location : Nat) (cur : DB)
          (item : AddItem) (rest : List AddItem),
        item.isNew = true → item.name = "" ∨ item.quantity ≤ 0 →
        addGo uid ca dest location cur (item :: rest) = addGo uid ca dest location cur rest)
    ∧ (∀ (uid ca : Nat) (dest : Dest) (location : Nat) (cur : DB)
          (item : AddItem) (rest : List AddItem),
        item.isNew = false → item.inventory_id = 0 ∨ item.quantity ≤ 0 →
        addGo uid ca dest location cur (item :: rest) = addGo uid ca dest location cur rest) := by
  refine ⟨?_, ?_, ?_, ?_, ?_⟩
  · intro db uid rq h
    cases hres : addOp db uid rq with
    | ok d =>
      rw [hres] at h
      exact absurd h (by simp [exOk])
    | error e =>
      simp only [applyOp, hres, commitOr]
  · intro db uid loc items h
    cases hres : consumeOp db uid loc items with
    | ok d =>
      rw [hres] at h
      exact absurd h (by simp [exOk])
    | error e =>
      simp only [applyOp, hres, commitOr]
  · intro uid loc cur item rest hskip
    simp only [consumeGo]
    rw [if_pos hskip]
  · intro uid ca dest location cur item rest hnew hskip
    simp only [addGo]
    rw [if_pos hnew, if_pos hskip]
  · intro uid ca dest location cur item rest hnew hskip
    simp only [addGo]
    rw [if_neg (by simp [hnew]), if_pos hskip]

/-- C4 amended-claim witness: a batch of three consume movements whose second
movement fails a checked validation (5 requested, 1 on hand) fails as a
whole, and the committed state is exactly the state before the batch — the
valid movements 1 and 3 leave no trace. -/
theorem c4_batch_atomicity_witness :
    exOk (consumeOp
        (⟨[⟨1, 7, "A", none⟩, ⟨2, 7, "B", none⟩, ⟨3, 7, "C", none⟩], [],
          [⟨1, 2, 10⟩, ⟨2, 2, 1⟩, ⟨3, 2, 10⟩], [], [], [], 10⟩ : DB)
        7 2 [⟨1, 4⟩, ⟨2, 5⟩, ⟨3, 2⟩]) = false
    ∧ applyOp
        (⟨[⟨1, 7, "A", none⟩, ⟨2, 7, "B", none⟩, ⟨3, 7, "C", none⟩], [],
          [⟨1, 2, 10⟩, ⟨2, 2, 1⟩, ⟨3, 2, 10⟩], [], [], [], 10⟩ : DB)
        (.consume 7 2 [⟨1, 4⟩, ⟨2, 5⟩, ⟨3, 2⟩])
      = ⟨[⟨1, 7, "A", none⟩, ⟨2, 7, "B", none⟩, ⟨3, 7, "C", none⟩], [],
          [⟨1, 2, 10⟩, ⟨2, 2, 1⟩, ⟨3, 2, 10⟩], [], [], [], 10⟩ :=
  ⟨by decide, c4_batch_atomicity.2.1 _ 7 2 [⟨1, 4⟩, ⟨2, 5⟩, ⟨3, 2⟩] (by decide)⟩

/-! ## Idempotent item creation in the add handler -/

lemma addGo_single_items {uid ca : Nat} {dest : Dest} {location : Nat}
    {db : DB} {it : AddItem}
    (hnew : it.isNew = true) (hmatch : matchingItem db uid it.name = true) :
    ∀ db', addGo uid ca dest location db [it] = .ok db' → db'.items = db.items := by
  intro db' h
  simp only [addGo] at h
  rw [if_pos hnew] at h
  split at h
  · simp only [Except.ok.injEq] at h
    rw [← h]
  · split at h
    · rename_i it2 hf2
      split at h
      · simp at h
      · rename_i cur' hmv
        simp only [Except.ok.injEq] at h
        rw [← h]
        exact (applyMove_frame hmv).1
    · rename_i hf2
      have hsome : (db.items.find?
          (fun x => lowerEq x.name it.name && decide (x.userId = uid))).isSome := by
        rw [List.find?_isSome]
        exact List.any_eq_true.mp hmatch
      rw [hf2] at hsome
      simp at hsome

lemma addGo_single_creates {uid ca : Nat} {dest : Dest} {location : Nat}
    {db db' : DB} {it : AddItem}
    (hnew : it.isNew = true) (hname : it.name ≠ "") (hq : 0 < it.quantity)
    (h : addGo uid ca dest location db [it] = .ok db') :
    matchingItem db' uid it.name = true := by
  have hskip : ¬(it.name = "" ∨ it.quantity ≤ 0) := by
    rintro (hc | hc)
    · exact hname hc
    · omega
  simp only [addGo] at h
  rw [if_pos hnew, if_neg hskip] at h
  split at h
  · rename_i it2 hf2
    split at h
    · simp at h
    · rename_i cur' hmv
      simp only [Except.ok.injEq] at h
      have hpred := List.find?_some hf2
      have hmem := List.mem_of_find?_eq_some hf2
      rw [← h]
      unfold matchingItem
      rw [List.any_eq_true]
      refine ⟨it2, ?_, hpred⟩
      rw [(applyMove_frame hmv).1]
      exact hmem
  · rename_i hf2
    split at h
    · simp at h
    · split at h
      · simp at h
      · rename_i cur'' hmv
        simp only [Except.ok.injEq] at h
        rw [← h]
        unfold matchingItem
        rw [List.any_eq_true]
        refine ⟨⟨db.nextItemId, uid, it.name,
          if it.barcode.getD "" = "" then none else some (it.barcode.getD "")⟩, ?_, ?_⟩
        · rw [(applyMove_frame hmv).1]
          show _ ∈ db.items ++ [_]
          rw [List.mem_append]
          exact Or.inr (List.mem_singleton.mpr rfl)
        · show (lowerEq it.name it.name && decide (uid = uid)) = true
          rw [Bool.and_eq_true]
          constructor
          · unfold lowerEq
            exact beq_self_eq_true _
          · simp

lemma addOp_single_items {db : DB} {uid : Nat} {it : AddItem} {dest : Dest} {loc : Nat}
    (hnew : it.isNew = true) (hmatch : matchingItem db uid it.name = true) :
    (applyOp db (.add uid ⟨dest, loc, [it]⟩)).items = db.items := by
  cases hres : addOp db uid ⟨dest, loc, [it]⟩ with
  | error e =>
    simp only [applyOp, hres, commitOr]
  | ok db' =>
    simp only [applyOp, hres, commitOr]
    unfold addOp at hres
    split at hres
    · simp at hres
    · exact addGo_single_items hnew hmatch db' hres

/-- C9: in a single-item batch add of an item flagged new, if an existing
catalog item of the account matches the name case-insensitively then the
existing item is reused and the catalog is unchanged; and after any
successful add of a new item, a matching catalog item exists, so a second add
of the same name creates no additional item. -/
theorem c9_idempotent_item_creation (db : DB) (uid : Nat) (it : AddItem) (dest : Dest) (loc : Nat)
    (hnew : it.isNew = true) :
    (matchingItem db uid it.name = true →
        (applyOp db (.add uid ⟨dest, loc, [it]⟩)).items = db.items)
    ∧ (∀ db', addOp db uid ⟨dest, loc, [it]⟩ = .ok db' → it.name ≠ "" → 0 < it.quantity →
        matchingItem db' uid it.name = true
        ∧ (applyOp db' (.add uid ⟨dest, loc, [it]⟩)).items = db'.items) := by
  constructor
  · intro hmatch
    exact addOp_single_items hnew hmatch
  · intro db' hok hname hq
    have hmatch' : matchingItem db' uid it.name = true := by
      unfold addOp at hok
      split at hok
      · simp at hok
      · exact addGo_single_creates hnew hname hq hok
    exact ⟨hmatch', addOp_single_items hnew hmatch'⟩

/-- C9 witness: user 7 already owns an item named "gauze"; adding a new item
named "Gauze" reuses it and the catalog is unchanged. -/
theorem c9_idempotent_item_creation_witness :
    matchingItem (⟨[⟨1, 7, "gauze", none⟩], [⟨4, 7, "Common Area"⟩], [], [], [], [], 10⟩ : DB)
        7 "Gauze" = true
    ∧ (applyOp (⟨[⟨1, 7, "gauze", none⟩], [⟨4, 7, "Common Area"⟩], [], [], [], [], 10⟩ : DB)
        (.add 7 ⟨.direct, 3, [⟨true, "Gauze", none, 0, 5⟩]⟩)).items
      = (⟨[⟨1, 7, "gauze", none⟩], [⟨4, 7, "Common Area"⟩], [], [], [], [], 10⟩ : DB).items :=
  ⟨by decide,
    (c9_idempotent_item_creation _ 7 ⟨true, "Gauze", none, 0, 5⟩ .direct 3 rfl).1 (by decide)⟩

/-! ## Non-negativity preservation, operation by operation -/

lemma consumeGo_wf (uid loc : Nat) :
    ∀ (items : List ConsumeItem) (cur db' : DB),
      GoodKeysL cur.locInv → (∀ r ∈ cur.locInv, 0 ≤ r.qty) →
      consumeGo uid loc cur items = .ok db' →
      GoodKeysL db'.locInv ∧ (∀ r ∈ db'.locInv, 0 ≤ r.qty)
        ∧ db'.opSup = cur.opSup ∧ db'.supplies = cur.supplies := by
  intro items
  induction items with
  | nil =>
    intro cur db' hk hn h
    simp only [consumeGo, Except.ok.injEq] at h
    rw [← h]
    exact ⟨hk, hn, rfl, rfl⟩
  | cons item rest ih =>
    intro cur db' hk hn h
    simp only [consumeGo] at h
    split at h
    · exact ih cur db' hk hn h
    · rename_i hskip
      split at h
      · simp at h
      · split at h
        · simp at h
        · rename_i r hfind
          split at h
          · simp at h
          · rename_i hlt
            have hq : 0 < item.quantity := by
              rcases not_or.mp hskip with ⟨_, h2⟩
              omega
            have hk' : GoodKeysL (updQty cur item.inventory_id loc (· - item.quantity)).locInv := by
              rw [updQty_locInv]
              exact goodKeysL_updQtyL hk _ _ _
            have hn' : ∀ r' ∈ (updQty cur item.inventory_id loc (· - item.quantity)).locInv,
                0 ≤ r'.qty := by
              rw [updQty_locInv]
              refine nonneg_updQtyL hn ?_
              intro r' hm h1 h2
              have heq := matching_eq_of_goodKeys hk hfind r' hm h1 h2
              subst heq
              omega
            obtain ⟨a, b, c, d⟩ := ih _ db' hk' hn' h
            exact ⟨a, b, by rw [c, updQty_opSup], by rw [d, updQty_supplies]⟩

lemma consumeOp_wf {db db' : DB} {uid loc : Nat} {items : List ConsumeItem}
    (hk : GoodKeysL db.locInv) (hn : ∀ r ∈ db.locInv, 0 ≤ r.qty)
    (h : consumeOp db uid loc items = .ok db') :
    GoodKeysL db'.locInv ∧ (∀ r ∈ db'.locInv, 0 ≤ r.qty)
      ∧ db'.opSup = db.opSup ∧ db'.supplies = db.supplies := by
  unfold consumeOp at h
  split at h
  · simp at h
  · exact consumeGo_wf uid loc items db db' hk hn h

lemma transferOp_wf {db db' : DB} {uid : Nat} {rq : TransferReq} (hq : 0 < rq.quantity)
    (hk : GoodKeysL db.locInv) (hn : ∀ r ∈ db.locInv, 0 ≤ r.qty)
    (h : transferOp db uid rq = .ok db') :
    GoodKeysL db'.locInv ∧ (∀ r ∈ db'.locInv, 0 ≤ r.qty)
      ∧ db'.opSup = db.opSup ∧ db'.supplies = db.supplies := by
  obtain ⟨r, hfind, hge, rfl⟩ := transferOp_ok h
  have hk1 : GoodKeysL (updQty db rq.inventory_id rq.source_location_id
      (· - rq.quantity)).locInv := by
    rw [updQty_locInv]
    exact goodKeysL_updQtyL hk _ _ _
  have hn1 : ∀ r' ∈ (updQty db rq.inventory_id rq.source_location_id
      (· - rq.quantity)).locInv, 0 ≤ r'.qty := by
    rw [updQty_locInv]
    refine nonneg_updQtyL hn ?_
    intro r' hm h1 h2
    have heq := matching_eq_of_goodKeys hk hfind r' hm h1 h2
    subst heq
    omega
  unfold upsertAdd
  cases hf2 : findRow (updQty db rq.inventory_id rq.source_location_id (· - rq.quantity))
      rq.inventory_id rq.destination_location_id with
  | some r2 =>
    refine ⟨?_, ?_, rfl, rfl⟩
    · rw [updQty_locInv]
      exact goodKeysL_updQtyL hk1 _ _ _
    · rw [updQty_locInv]
      refine nonneg_updQtyL hn1 ?_
      intro r' hm _ _
      have := hn1 r' hm
      omega
  | none =>
    refine ⟨?_, ?_, rfl, rfl⟩
    · rw [insertRow_locInv]
      exact goodKeysL_append hk1 hf2 _
    · rw [insertRow_locInv]
      exact nonneg_append_single hn1 (show (0:Int) ≤ rq.quantity by omega)

lemma checkinOp_wf {db db' : DB} {rq : CheckinReq}
    (hk : GoodKeysL db.locInv) (hn : ∀ r ∈ db.locInv, 0 ≤ r.qty)
    (h : checkinOp db rq = .ok db') :
    GoodKeysL db'.locInv ∧ (∀ r ∈ db'.locInv, 0 ≤ r.qty)
      ∧ db'.opSup = db.opSup ∧ db'.supplies = db.supplies := by
  rw [checkinOp_eq] at h
  split at h
  · simp at h
  · rename_i hneg
    split at h
    · simp only [Except.ok.injEq] at h
      rw [← h]
      refine ⟨?_, ?_, rfl, rfl⟩
      · rw [updQty_locInv]
        exact goodKeysL_updQtyL hk _ _ _
      · rw [updQty_locInv]
        refine nonneg_updQtyL hn ?_
        intro r' _ _ _
        omega
    · rename_i hfind
      split at h
      · simp at h
      · rename_i hq
        simp only [Except.ok.injEq] at h
        rw [← h]
        refine ⟨?_, ?_, rfl, rfl⟩
        · rw [insertRow_locInv]
          exact goodKeysL_append hk hfind _
        · rw [insertRow_locInv]
          exact nonneg_append_single hn (show (0:Int) ≤ rq.quantity by omega)

lemma scanConsumeOp_wf {db db' : DB} {uid : Nat} {rq : ScanConsumeReq}
    (hk : GoodKeysL db.locInv) (hn : ∀ r ∈ db.locInv, 0 ≤ r.qty)
    (h : scanConsumeOp db uid rq = .ok db') :
    GoodKeysL db'.locInv ∧ (∀ r ∈ db'.locInv, 0 ≤ r.qty)
      ∧ db'.opSup = db.opSup ∧ db'.supplies = db.supplies := by
  unfold scanConsumeOp at h
  split at h
  · simp at h
  · rename_i hqpos
    split at h
    · simp at h
    · split at h
      · simp at h
      · split at h
        · simp at h
        · rename_i it hit hne r hfind
          split at h
          · simp at h
          · rename_i hlt
            simp only [Except.ok.injEq] at h
            rw [← h]
            refine ⟨?_, ?_, rfl, rfl⟩
            · rw [updQty_locInv]
              exact goodKeysL_updQtyL hk _ _ _
            · rw [updQty_locInv]
              refine nonneg_updQtyL hn ?_
              intro r' hm h1 h2
              have heq := matching_eq_of_goodKeys hk hfind r' hm h1 h2
              subst heq
              omega

lemma moveSource_wf {commonAreaId : Nat} {dest : Dest} {location : Nat}
    {cur cur1 : DB} {invId : Nat} {q : Int} {target : Nat}
    (hk : GoodKeysL cur.locInv) (hn : ∀ r ∈ cur.locInv, 0 ≤ r.qty)
    (h : moveSource commonAreaId dest location cur invId q = .ok (cur1, target)) :
    GoodKeysL cur1.locInv ∧ (∀ r ∈ cur1.locInv, 0 ≤ r.qty) := by
  rcases moveSource_cases h with ⟨_, _, r, hf, hge, rfl⟩ | ⟨_, rfl, _⟩ | ⟨_, rfl, _⟩
  · constructor
    · rw [updQty_locInv]
      exact goodKeysL_updQtyL hk _ _ _
    · rw [updQty_locInv]
      refine nonneg_updQtyL hn ?_
      intro r' hm h1 h2
      have heq := matching_eq_of_goodKeys hk hf r' hm h1 h2
      subst heq
      omega
  · exact ⟨hk, hn⟩
  · exact ⟨hk, hn⟩

lemma applyMove_wf {commonAreaId : Nat} {dest : Dest} {location : Nat}
    {cur cur' : DB} {invId : Nat} {q : Int} (hq : 0 < q)
    (hk : GoodKeysL cur.locInv) (hn : ∀ r ∈ cur.locInv, 0 ≤ r.qty)
    (h : applyMove commonAreaId dest location cur invId q = .ok cur') :
    GoodKeysL cur'.locInv ∧ (∀ r ∈ cur'.locInv, 0 ≤ r.qty) := by
  obtain ⟨cur1, target, hms, ht, hrest⟩ := applyMove_cases h
  obtain ⟨hk1, hn1⟩ := moveSource_wf hk hn hms
  rcases hrest with ⟨r, hf, rfl⟩ | ⟨hf, rfl⟩
  · constructor
    · rw [updQty_locInv]
      exact goodKeysL_updQtyL hk1 _ _ _
    · rw [updQty_locInv]
      refine nonneg_updQtyL hn1 ?_
      intro r' hm _ _
      have := hn1 r' hm
      omega
  · constructor
    · rw [insertRow_locInv]
      exact goodKeysL_append hk1 hf _
    · rw [insertRow_locInv]
      exact nonneg_append_single hn1 (show (0:Int) ≤ q by omega)

lemma addGo_wf (uid commonAreaId : Nat) (dest : Dest) (location : Nat) :
    ∀ (items : List AddItem) (cur db' : DB),
      GoodKeysL cur.locInv → (∀ r ∈ cur.locInv, 0 ≤ r.qty) →
      addGo uid commonAreaId dest location cur items = .ok db' →
      GoodKeysL db'.locInv ∧ (∀ r ∈ db'.locInv, 0 ≤ r.qty)
        ∧ db'.opSup = cur.opSup ∧ db'.supplies = cur.supplies := by
  intro items
  induction items with
  | nil =>
    intro cur db' hk hn h
    simp only [addGo, Except.ok.injEq] at h
    rw [← h]
    exact ⟨hk, hn, rfl, rfl⟩
  | cons item rest ih =>
    intro cur db' hk hn h
    simp only [addGo] at h
    split at h
    · -- isNew branch
      split at h
      · exact ih cur db' hk hn h
      · rename_i hskip
        have hq : 0 < item.quantity := by
          rcases not_or.mp hskip with ⟨_, h2⟩
          omega
        split at h
        · -- name matched an existing item
          rename_i it2 hf2
          split at h
          · simp at h
          · rename_i cur' hmv
            obtain ⟨hk', hn'⟩ := applyMove_wf hq hk hn hmv
            obtain ⟨a, b, c, d⟩ := ih _ db' hk' hn' h
            have hfr := applyMove_frame hmv
            exact ⟨a, b, by rw [c, hfr.2.2.2.1], by rw [d, hfr.2.2.1]⟩
        · -- fresh catalog item inserted
          split at h
          · simp at h
          · split at h
            · simp at h
            · rename_i cur'' hmv
              obtain ⟨hk', hn'⟩ := applyMove_wf hq (by exact hk) (by exact hn) hmv
              obtain ⟨a, b, c, d⟩ := ih _ db' hk' hn' h
              have hfr := applyMove_frame hmv
              exact ⟨a, b, by rw [c, hfr.2.2.2.1], by rw [d, hfr.2.2.1]⟩
    · -- existing-item branch
      split at h
      · exact ih cur db' hk hn h
      · rename_i hskip
        have hq : 0 < item.quantity := by
          rcases not_or.mp hskip with ⟨_, h2⟩
          omega
        split at h
        · simp at h
        · split at h
          · simp at h
          · rename_i cur' hmv
            obtain ⟨hk', hn'⟩ := applyMove_wf hq hk hn hmv
            obtain ⟨a, b, c, d⟩ := ih _ db' hk' hn' h
            have hfr := applyMove_frame hmv
            exact ⟨a, b, by rw [c, hfr.2.2.2.1], by rw [d, hfr.2.2.1]⟩

lemma addOp_wf {db db' : DB} {uid : Nat} {rq : AddReq}
    (hk : GoodKeysL db.locInv) (hn : ∀ r ∈ db.locInv, 0 ≤ r.qty)
    (h : addOp db uid rq = .ok db') :
    GoodKeysL db'.locInv ∧ (∀ r ∈ db'.locInv, 0 ≤ r.qty)
      ∧ db'.opSup = db.opSup ∧ db'.supplies = db.supplies := by
  unfold addOp at h
  split at h
  · simp at h
  · exact addGo_wf uid _ rq.destination rq.location rq.supplies db db' hk hn h

lemma applyOp_wf {db : DB} {op : Op} (hm : movementOk op = true)
    (hk : GoodKeys db) (hn : NonNegDB db) :
    GoodKeys (applyOp db op) ∧ NonNegDB (applyOp db op) := by
  obtain ⟨hn1, hn2, hn3⟩ := hn
  cases op with
  | logMove rq => simp [movementOk] at hm
  | updateSupply sid q c => simp [movementOk] at hm
  | add uid rq =>
    cases hres : addOp db uid rq with
    | error e =>
      simp only [applyOp, hres, commitOr]
      exact ⟨hk, hn1, hn2, hn3⟩
    | ok d =>
      simp only [applyOp, hres, commitOr]
      obtain ⟨a, b, c, dd⟩ := addOp_wf hk hn1 hres
      refine ⟨a, b, ?_, ?_⟩
      · rw [c]
        exact hn2
      · rw [dd]
        exact hn3
  | consume uid loc items =>
    cases hres : consumeOp db uid loc items with
    | error e =>
      simp only [applyOp, hres, commitOr]
      exact ⟨hk, hn1, hn2, hn3⟩
    | ok d =>
      simp only [applyOp, hres, commitOr]
      obtain ⟨a, b, c, dd⟩ := consumeOp_wf hk hn1 hres
      refine ⟨a, b, ?_, ?_⟩
      · rw [c]
        exact hn2
      · rw [dd]
        exact hn3
  | transfer uid rq =>
    have hq : 0 < rq.quantity := by
      simpa [movementOk] using hm
    cases hres : transferOp db uid rq with
    | error e =>
      simp only [applyOp, hres, commitOr]
      exact ⟨hk, hn1, hn2, hn3⟩
    | ok d =>
      simp only [applyOp, hres, commitOr]
      obtain ⟨a, b, c, dd⟩ := transferOp_wf hq hk hn1 hres
      refine ⟨a, b, ?_, ?_⟩
      · rw [c]
        exact hn2
      · rw [dd]
        exact hn3
  | checkin rq =>
    cases hres : checkinOp db rq with
    | error e =>
      simp only [applyOp, hres, commitOr]
      exact ⟨hk, hn1, hn2, hn3⟩
    | ok d =>
      simp only [applyOp, hres, commitOr]
      obtain ⟨a, b, c, dd⟩ := checkinOp_wf hk hn1 hres
      refine ⟨a, b, ?_, ?_⟩
      · rw [c]
        exact hn2
      · rw [dd]
        exact hn3
  | scanConsume uid rq =>
    cases hres : scanConsumeOp db uid rq with
    | error e =>
      simp only [applyOp, hres, commitOr]
      exact ⟨hk, hn1, hn2, hn3⟩
    | ok d =>
      simp only [applyOp, hres, commitOr]
      obtain ⟨a, b, c, dd⟩ := scanConsumeOp_wf hk hn1 hres
      refine ⟨a, b, ?_, ?_⟩
      · rw [c]
        exact hn2
      · rw [dd]
        exact hn3

lemma foldl_wf (ops : List Op) :
    ∀ db : DB, (∀ op ∈ ops, movementOk op = true) → GoodKeys db → NonNegDB db →
      GoodKeys (ops.foldl applyOp db) ∧ NonNegDB (ops.foldl applyOp db) := by
  induction ops with
  | nil =>
    intro db _ hk hn
    exact ⟨hk, hn⟩
  | cons op rest ih =>
    intro db hm hk hn
    obtain ⟨hk', hn'⟩ := applyOp_wf (hm op (List.mem_cons_self op rest)) hk hn
    exact ih (applyOp db op) (fun o ho => hm o (List.mem_cons_of_mem op ho)) hk' hn'

/-- C1 counterexample: on a state in which every stock quantity is zero (hence
non-negative), one log request (`POST /api/logs`, action "use", quantity 5)
commits and drives the op_supplies row and the global supply quantity to -5,
where the claim requires every committed operation — log operations
included — to preserve non-negativity. -/
theorem c1_counterexample :
    NonNegDB (⟨[], [], [], [⟨1, none, 0⟩], [⟨1, 1, 0⟩], [], 0⟩ : DB)
    ∧ opCommits (⟨[], [], [], [⟨1, none, 0⟩], [⟨1, 1, 0⟩], [], 0⟩ : DB)
        (.logMove ⟨7, 1, 1, 5, "use", none⟩) = true
    ∧ applyOp (⟨[], [], [], [⟨1, none, 0⟩], [⟨1, 1, 0⟩], [], 0⟩ : DB)
        (.logMove ⟨7, 1, 1, 5, "use", none⟩)
      = ⟨[], [], [], [⟨1, none, -5⟩], [⟨1, 1, -5⟩], [⟨7, 1, 1, 5, "use", 0, 0, none⟩], 0⟩
    ∧ ¬ NonNegDB (⟨[], [], [], [⟨1, none, -5⟩], [⟨1, 1, -5⟩],
        [⟨7, 1, 1, 5, "use", 0, 0, none⟩], 0⟩ : DB) := by
  have hres : logOp (⟨[], [], [], [⟨1, none, 0⟩], [⟨1, 1, 0⟩], [], 0⟩ : DB)
      ⟨7, 1, 1, 5, "use", none⟩
      = .ok (⟨[], [], [], [⟨1, none, -5⟩], [⟨1, 1, -5⟩],
          [⟨7, 1, 1, 5, "use", 0, 0, none⟩], 0⟩ : DB) := by
    norm_num [logOp, logEntryOf, currentUnitCost, List.find?]
  refine ⟨by decide, ?_, ?_, by decide⟩
  · simp only [opCommits, hres, exOk]
  · simp only [applyOp, hres, commitOr]

/-- C1 (amended): starting from a well-formed state — unique (item, location)
stock rows, every quantity non-negative — any sequence of the stock-moving
requests (batch add / check-in, batch consume, transfer, scan check-in, scan
consume), with transfers restricted to a positive requested quantity, keeps
every location_inventory, op_supplies and supplies quantity non-negative
after each committed operation.  The log endpoint must be excluded: its
unguarded `quantity ± q` updates can commit negative quantities
(`c1_counterexample`). -/
theorem c1_movements_preserve_nonneg (ops : List Op) (db : DB)
    (hk : GoodKeys db) (hn : NonNegDB db)
    (hm : ∀ op ∈ ops, movementOk op = true) :
    ∀ n : Nat, NonNegDB ((ops.take n).foldl applyOp db) := by
  intro n
  exact (foldl_wf (ops.take n) db
    (fun o ho => hm o (List.take_subset n ops ho)) hk hn).2

/-- C1 amended-claim witness: a check-in, a transfer and a consume run in
sequence from a concrete well-formed state, and every quantity stays
non-negative after all three commits. -/
theorem c1_movements_preserve_nonneg_witness :
    GoodKeys (⟨[⟨1, 7, "A", none⟩], [], [⟨1, 2, 6⟩], [], [], [], 10⟩ : DB)
    ∧ NonNegDB (⟨[⟨1, 7, "A", none⟩], [], [⟨1, 2, 6⟩], [], [], [], 10⟩ : DB)
    ∧ (∀ op ∈ ([.checkin ⟨1, 2, 3⟩, .transfer 7 ⟨1, 2, 3, 2⟩,
          .consume 7 3 [⟨1, 1⟩]] : List Op), movementOk op = true)
    ∧ NonNegDB ((([.checkin ⟨1, 2, 3⟩, .transfer 7 ⟨1, 2, 3, 2⟩,
          .consume 7 3 [⟨1, 1⟩]] : List Op).take 3).foldl applyOp
        (⟨[⟨1, 7, "A", none⟩], [], [⟨1, 2, 6⟩], [], [], [], 10⟩ : DB)) :=
  ⟨by decide, by decide, by decide,
    c1_movements_preserve_nonneg _ _ (by decide) (by decide) (by decide) 3⟩

/-! ## The retry helpers -/

/-- C6 counterexample: the PostgreSQL not-null-violation class has code
23502; an attempt that fails with code 23502 is retried — here the first
attempt fails with 23502 and the helper succeeds on the second attempt —
where the claim requires not-null-class errors to be surfaced immediately on
the first attempt without any retry. -/
theorem c6_counterexample :
    nonRetryable ⟨"23502"⟩ = false
    ∧ runAttempts [Except.error ⟨"23502"⟩, Except.ok (42 : Nat)]
      = some (Except.ok 42, 2) := by
  constructor
  · decide
  · rfl

lemma runAttempts_bounds {α : Type} :
    ∀ (os : List (Except SqlError α)) (r : Except SqlError α) (n : Nat),
      runAttempts os = some (r, n) → 1 ≤ n ∧ n ≤ os.length := by
  intro os
  induction os with
  | nil =>
    intro r n h
    simp [runAttempts] at h
  | cons o rest ih =>
    intro r n h
    cases o with
    | ok v =>
      have heq : runAttempts (Except.ok v :: rest) = some (.ok v, 1) := rfl
      rw [heq] at h
      simp only [Option.some.injEq, Prod.mk.injEq] at h
      obtain ⟨-, hn⟩ := h
      simp only [List.length_cons]
      omega
    | error e =>
      by_cases hnr : nonRetryable e = true
      · have heq : runAttempts (Except.error e :: rest) = some (.error e, 1) := by
          simp only [runAttempts]
          rw [if_pos hnr]
        rw [heq] at h
        simp only [Option.some.injEq, Prod.mk.injEq] at h
        obtain ⟨-, hn⟩ := h
        simp only [List.length_cons]
        omega
      · cases hrec : runAttempts rest with
        | none =>
          have heq : runAttempts (Except.error e :: rest) = some (.error e, 1) := by
            simp only [runAttempts]
            rw [if_neg hnr, hrec]
          rw [heq] at h
          simp only [Option.some.injEq, Prod.mk.injEq] at h
          obtain ⟨-, hn⟩ := h
          simp only [List.length_cons]
          omega
        | some p =>
          obtain ⟨r0, n0⟩ := p
          have heq : runAttempts (Except.error e :: rest) = some (r0, n0 + 1) := by
            simp only [runAttempts]
            rw [if_neg hnr, hrec]
          rw [heq] at h
          simp only [Option.some.injEq, Prod.mk.injEq] at h
          obtain ⟨-, hn⟩ := h
          have hb := ih r0 n0 hrec
          simp only [List.length_cons]
          omega

/-- C6 (amended): the retry helpers retry a failed attempt up to the bounded
attempt count (3 by default), with exponential backoff starting at 1000 ms,
doubling per attempt, capped at 5000 ms; errors of the classes
unique-constraint violation (23505), foreign-key violation (23503), missing
table (42P01) and missing column (42703) are never retried and surface on the
first attempt; but other error classes — including not-null violations
(23502) — are retried. -/
theorem c6_retry_policy :
    (∀ (α : Type) (e : SqlError) (rest : List (Except SqlError α)),
        nonRetryable e = true → runAttempts (.error e :: rest) = some (.error e, 1))
    ∧ (∀ (α : Type) (os : List (Except SqlError α)) (r : Except SqlError α) (n : Nat),
        runAttempts os = some (r, n) → 1 ≤ n ∧ n ≤ os.length)
    ∧ (∀ (e : SqlError) (bodies : List (DB → Except SqlError (DB × Unit))) (db : DB),
        nonRetryable e = true →
        transactionAttempts ((fun _ => .error e) :: bodies) db = some (.error e, 1))
    ∧ backoffDelay 1 = 1000
    ∧ (∀ k : Nat, 1 ≤ k → backoffDelay (k + 1) = min (2 * (1000 * 2 ^ (k - 1))) 5000)
    ∧ (∀ k : Nat, backoffDelay k ≤ 5000) := by
  refine ⟨?_, ?_, ?_, rfl, ?_, ?_⟩
  · intro α e rest he
    simp only [runAttempts]
    rw [if_pos he]
  · intro α os r n h
    exact runAttempts_bounds os r n h
  · intro e bodies db he
    simp only [transactionAttempts]
    rw [if_pos he]
  · intro k hk
    unfold backoffDelay
    congr 1
    have hsub : k + 1 - 1 = k := by omega
    rw [hsub]
    have hk2 : k = (k - 1) + 1 := by omega
    calc 1000 * 2 ^ k = 1000 * (2 ^ (k - 1) * 2) := by rw [← pow_succ, ← hk2]
      _ = 2 * (1000 * 2 ^ (k - 1)) := by ring
  · intro k
    unfold backoffDelay
    exact Nat.min_le_right _ _

/-- C6 amended-claim witness: a foreign-key violation (23503) on the first
attempt is surfaced immediately with exactly one attempt used. -/
theorem c6_retry_policy_witness :
    nonRetryable ⟨"23503"⟩ = true
    ∧ runAttempts [Except.error ⟨"23503"⟩, Except.ok (0 : Nat)]
      = some (Except.error ⟨"23503"⟩, 1) :=
  ⟨by decide,
    c6_retry_policy.1 Nat ⟨"23503"⟩ [Except.ok 0] (by decide)⟩

end MolarStock
